import Mathlib

/-!
Verification of the provider-failover orchestration layer and staged
generation pipeline of the product-ai-creator repository.

The TypeScript sources are shallowly embedded: JavaScript runtime values
that flow through the duck-typed parsing code are modelled by the
inductive type `Json`; fallible code (JS exceptions) is modelled with
`Except String`; machine floats are modelled by `ℚ` (the pricing
arithmetic of the code is plain field arithmetic); the upstream provider
calls, the image fetch and the JS builtin `JSON.parse` are modelled as
oracle parameters, since their behaviour is external to the repository.
-/

set_option maxRecDepth 100000

namespace ProductAI

/-! §1  JavaScript runtime values.

`Json` models the values produced by `JSON.parse` plus the JS value
`undefined` which arises from property accesses.  Objects are modelled
as association lists (duplicate keys are already resolved by the parse,
first binding wins in lookup). -/

inductive Json where
  | undefined : Json
  | null : Json
  | bool (b : Bool) : Json
  | num (q : ℚ) : Json
  | str (s : String) : Json
  | arr (elems : List Json) : Json
  | obj (fields : List (String × Json)) : Json

/-- JS truthiness: `undefined`, `null`, `false`, `0` and `""` are falsy. -/
def Json.truthy : Json → Bool
  | .undefined => false
  | .null => false
  | .bool b => b
  | .num q => !(q == 0)
  | .str s => !(s == "")
  | .arr _ => true
  | .obj _ => true

/-- The JS `a || b` operator. -/
def jsOr (a b : Json) : Json := if a.truthy then a else b

def Json.isNum : Json → Bool
  | .num _ => true
  | _ => false

def Json.isArr : Json → Bool
  | .arr _ => true
  | _ => false

/-- The JS `typeof x === 'object'` test (true for objects, arrays and null). -/
def Json.isTypeofObject : Json → Bool
  | .obj _ => true
  | .arr _ => true
  | .null => true
  | _ => false

def Json.asNum : Json → ℚ
  | .num q => q
  | _ => 0

def lookupField : List (String × Json) → String → Json
  | [], _ => .undefined
  | (k', v) :: rest, k => if k' = k then v else lookupField rest k

/-- JS property access `x.k`.  Throws a `TypeError` on `null`/`undefined`;
objects yield the bound value or `undefined`; arrays and strings expose
`length`; other primitives yield `undefined`. -/
def Json.getProp : Json → String → Except String Json
  | .null, _ => .error "TypeError: Cannot read properties of null"
  | .undefined, _ => .error "TypeError: Cannot read properties of undefined"
  | .obj fields, k => .ok (lookupField fields k)
  | .arr l, k => .ok (if k = "length" then .num (l.length : ℚ) else .undefined)
  | .str s, k => .ok (if k = "length" then .num (s.length : ℚ) else .undefined)
  | .num _, _ => .ok .undefined
  | .bool _, _ => .ok .undefined

/-- JS optional-chained access `x?.[k]` — total, `undefined` on `null`/`undefined`. -/
def Json.optIdx (j : Json) (k : String) : Json :=
  match j with
  | .null => .undefined
  | .undefined => .undefined
  | .obj fields => lookupField fields k
  | _ => .undefined

/-- Decimal rendering of a rational; stands in for JS number-to-string
conversion (no theorem below depends on its exact output). -/
def jsNumRepr (q : ℚ) : String :=
  if q.den = 1 then toString q.num else toString q

mutual

/-- JS `String(x)`.  `joinJsList` is JS `Array.prototype.join`, which
renders `null`/`undefined` elements as the empty string. -/
def Json.toJsString : Json → String
  | .undefined => "undefined"
  | .null => "null"
  | .bool b => if b then "true" else "false"
  | .num q => jsNumRepr q
  | .str s => s
  | .arr l => joinJsList "," l
  | .obj _ => "[object Object]"

def joinJsList (sep : String) : List Json → String
  | [] => ""
  | j :: rest =>
    let s := match j with
      | .undefined => ""
      | .null => ""
      | other => other.toJsString
    match rest with
    | [] => s
    | _ :: _ => s ++ sep ++ joinJsList sep rest
end

/-! §2  Shared utilities (`src/lib/utils`, snapshot file part_009). -/

/-- Backtick character (fence delimiter). -/
def tick : Char := Char.ofNat 96

/-- Scan to the first occurrence of three consecutive backticks and return
the suffix after it. -/
def dropThroughTicks : List Char → Option (List Char)
  | c1 :: c2 :: c3 :: rest =>
    if c1 = tick ∧ c2 = tick ∧ c3 = tick then some rest
    else dropThroughTicks (c2 :: c3 :: rest)
  | _ => none

/-- The characters strictly before the first occurrence of three
consecutive backticks (`none` when there is no such occurrence). -/
def beforeTicks : List Char → Option (List Char)
  | c1 :: c2 :: c3 :: rest =>
    if c1 = tick ∧ c2 = tick ∧ c3 = tick then some []
    else (beforeTicks (c2 :: c3 :: rest)).map (fun l => c1 :: l)
  | _ => none

/-- The optional literal `json` after the opening fence. -/
def skipJsonWord : List Char → List Char
  | 'j' :: 's' :: 'o' :: 'n' :: rest => rest
  | l => l

/-- Capture group of the code-fence pattern of `extractJsonFromMarkdown`:
after the first fence, skip an optional `json` tag and whitespace, then
take everything up to the closing fence. -/
def codeBlockCapture (l : List Char) : Option (List Char) := do
  let rest ← dropThroughTicks l
  beforeTicks ((skipJsonWord rest).dropWhile Char.isWhitespace)

/-- JS `String.prototype.trim` (ASCII whitespace; the additional Unicode
space characters trimmed by JS do not occur in any argument below). -/
def jsTrim (s : String) : String :=
  String.mk (((s.data.dropWhile Char.isWhitespace).reverse.dropWhile
    Char.isWhitespace).reverse)

/-- Everything of `l` up to and including the last occurrence of `ch`. -/
def upToLast (ch : Char) (l : List Char) : List Char :=
  (l.reverse.dropWhile (fun c => !(c == ch))).reverse

/-- Capture group of the raw-JSON pattern of `extractJsonFromMarkdown`:
the leftmost greedy match of a brace-delimited or bracket-delimited span. -/
def rawJsonScan : List Char → Option (List Char)
  | [] => none
  | c :: rest =>
    if c = '{' ∧ rest.contains '}' then some (c :: upToLast '}' rest)
    else if c = '[' ∧ rest.contains ']' then some (c :: upToLast ']' rest)
    else rawJsonScan rest

/-- `extractJsonFromMarkdown` from `src/lib/utils`: prefer the contents of a
markdown code fence, then a raw brace/bracket span, else the text itself. -/
def extractJsonFromMarkdown (text : String) : String :=
  match codeBlockCapture text.data with
  | some cap => jsTrim (String.mk cap)
  | none =>
    match rawJsonScan text.data with
    | some cap => jsTrim (String.mk cap)
    | none => text

/-- `safeJsonParse` from `src/lib/utils`.  `jparse` is the JS builtin
`JSON.parse` (external to the repository), modelled as an oracle:
`none` models a parse exception, answered with the fallback. -/
def safeJsonParse (jparse : String → Option Json) (json : String) (fallback : Json) : Json :=
  match jparse json with
  | some v => v
  | none => fallback

/-- `calculateNetPrice` from `src/types/unified-product` (part_015, also
duplicated in `src/lib/utils`). -/
def calculateNetPrice (gross : ℚ) (vatRate : ℚ) : ℚ :=
  gross / (1 + vatRate / 100)

/-- `calculateGrossPrice` from the same module. -/
def calculateGrossPrice (net : ℚ) (vatRate : ℚ) : ℚ :=
  net * (1 + vatRate / 100)

/-! §3  Provider registry (`adapters/index`, snapshot file part_012). -/

inductive ProviderType where
  | groq | cerebras | google | mistral | deepseek | openrouter
deriving DecidableEq

/-- `DEFAULT_PROVIDER_CONFIGS[type].priority`. -/
def priority : ProviderType → Nat
  | .groq => 1
  | .cerebras => 2
  | .google => 3
  | .mistral => 4
  | .deepseek => 5
  | .openrouter => 6

/-- The string form of a `ProviderType` tag, as interpolated into the
aggregate error entries. -/
def providerId : ProviderType → String
  | .groq => "groq"
  | .cerebras => "cerebras"
  | .google => "google"
  | .mistral => "mistral"
  | .deepseek => "deepseek"
  | .openrouter => "openrouter"

/-- `adapter.supportsVision()` per adapter class: the `BaseAdapter` default
is `false`; the Google adapter class overrides it to `true` (its class
source and `DEFAULT_PROVIDER_CONFIGS.google.supportsVision` agree). -/
def adapterSupportsVision : ProviderType → Bool
  | .google => true
  | _ => false

/-- `Object.keys(DEFAULT_PROVIDER_CONFIGS)` in insertion order. -/
def providerKeys : List ProviderType :=
  [.groq, .cerebras, .google, .mistral, .deepseek, .openrouter]

def insertByPriority (t : ProviderType) : List ProviderType → List ProviderType
  | [] => [t]
  | u :: rest =>
    if priority t ≤ priority u then t :: u :: rest else u :: insertByPriority t rest

def sortByPriority : List ProviderType → List ProviderType
  | [] => []
  | t :: rest => insertByPriority t (sortByPriority rest)

/-- `getProvidersByPriority` from part_012: the provider keys sorted by
ascending `priority` (the priorities are pairwise distinct, so the sort
order is unique and comparator stability is irrelevant). -/
def getProvidersByPriority : List ProviderType := sortByPriority providerKeys

/-! §4  Failover orchestrator (`services/ai/index`, snapshot file part_013).

An environment `cfg : ProviderType → Bool` records which providers have an
API key in the environment (`getAdapter` returns an adapter exactly for
those).  A behaviour `ProviderType → Except String AICompletionResponse`
is the outcome of one `complete`/`completeWithVision` call per adapter for
the request at hand; `.error m` models a rejection whose message is `m`.
The returned pair carries the ordered list of adapters actually invoked
(the observable call trace) together with the overall outcome. -/

structure AICompletionResponse where
  content : String
  model : String
  tokensUsed : Option Nat := none
  latencyMs : Nat := 0
  finishReason : Option String := none
deriving DecidableEq

/-- `getAvailableAdapters`: the priority-ordered providers that have an
adapter (an API key). -/
def getAvailableAdapters (cfg : ProviderType → Bool) : List ProviderType :=
  getProvidersByPriority.filter cfg

/-- `getVisionAdapters`: the available adapters whose class supports vision. -/
def getVisionAdapters (cfg : ProviderType → Bool) : List ProviderType :=
  (getAvailableAdapters cfg).filter adapterSupportsVision

/-- The `for … try … catch { errors.push; continue }` loop shared by
`generateContent` and `analyzeImages`: returns the attempted adapters in
order, the accumulated error entries, and the first success, if any. -/
def failoverLoop (behavior : ProviderType → Except String AICompletionResponse) :
    List ProviderType → List ProviderType × List String × Option AICompletionResponse
  | [] => ([], [], none)
  | t :: rest =>
    match behavior t with
    | .ok r => ([t], [], some r)
    | .error msg =>
      let out := failoverLoop behavior rest
      (t :: out.1, (providerId t ++ ": " ++ msg) :: out.2.1, out.2.2)

def noTextProvidersMsg : String :=
  "No AI providers configured. Check your API keys in .env"

def noVisionProvidersMsg : String :=
  "No vision-capable AI providers configured. Add GOOGLE_AI_API_KEY to .env"

def aggTextHeader : String := "All AI providers failed:\n"

def aggVisionHeader : String := "All vision providers failed:\n"

/-- `generateContent` from part_013: try every available adapter in
priority order, return the first success, or throw the aggregate error;
throw a configuration error when no adapter is available. -/
def generateContent (cfg : ProviderType → Bool)
    (behavior : ProviderType → Except String AICompletionResponse) :
    List ProviderType × Except String AICompletionResponse :=
  let availableAdapters := getAvailableAdapters cfg
  if availableAdapters.isEmpty then
    ([], .error noTextProvidersMsg)
  else
    match failoverLoop behavior availableAdapters with
    | (att, _, some r) => (att, .ok r)
    | (att, errs, none) =>
      (att, .error (aggTextHeader ++ String.intercalate "\n" errs))

/-- `analyzeImages` from part_013: the same loop over the vision-capable
adapters. -/
def analyzeImages (cfg : ProviderType → Bool)
    (behavior : ProviderType → Except String AICompletionResponse) :
    List ProviderType × Except String AICompletionResponse :=
  let visionAdapters := getVisionAdapters cfg
  if visionAdapters.isEmpty then
    ([], .error noVisionProvidersMsg)
  else
    match failoverLoop behavior visionAdapters with
    | (att, _, some r) => (att, .ok r)
    | (att, errs, none) =>
      (att, .error (aggVisionHeader ++ String.intercalate "\n" errs))

/-- `generateContentWithFallback` from part_013 simply delegates. -/
def generateContentWithFallback (cfg : ProviderType → Bool)
    (behavior : ProviderType → Except String AICompletionResponse) :
    List ProviderType × Except String AICompletionResponse :=
  generateContent cfg behavior

/-! §T1  Specification helpers and lemmas for the failover orchestrator. -/

/-- Whether one adapter call succeeds. -/
def isOkB (behavior : ProviderType → Except String AICompletionResponse)
    (t : ProviderType) : Bool :=
  match behavior t with
  | .ok _ => true
  | .error _ => false

/-- The first adapter of the list whose call succeeds, with its result. -/
def firstOk (behavior : ProviderType → Except String AICompletionResponse) :
    List ProviderType → Option (ProviderType × AICompletionResponse)
  | [] => none
  | t :: rest =>
    match behavior t with
    | .ok r => some (t, r)
    | .error _ => firstOk behavior rest

def errOf : Except String AICompletionResponse → String
  | .error m => m
  | .ok _ => ""

/-- The aggregate-error entry recorded for one failed adapter. -/
def errEntry (behavior : ProviderType → Except String AICompletionResponse)
    (t : ProviderType) : String :=
  providerId t ++ ": " ++ errOf (behavior t)

theorem failoverLoop_allFail (behavior : ProviderType → Except String AICompletionResponse)
    (l : List ProviderType) (h : ∀ t ∈ l, ∃ m, behavior t = .error m) :
    failoverLoop behavior l = (l, l.map (errEntry behavior), none) := by
  induction l with
  | nil => rfl
  | cons t rest ih =>
    obtain ⟨m, hm⟩ := h t (by simp)
    have ih' := ih (fun u hu => h u (by simp [hu]))
    simp [failoverLoop, hm, ih', errEntry, errOf]

theorem failoverLoop_trace_le (behavior : ProviderType → Except String AICompletionResponse)
    (l : List ProviderType) :
    ∃ rest, l = (failoverLoop behavior l).1 ++ rest := by
  induction l with
  | nil => exact ⟨[], rfl⟩
  | cons t r ih =>
    cases hb : behavior t with
    | ok v => exact ⟨r, by simp [failoverLoop, hb]⟩
    | error m =>
      obtain ⟨rest, hr⟩ := ih
      refine ⟨rest, ?_⟩
      simp only [failoverLoop, hb, List.cons_append, List.cons.injEq, true_and]
      exact hr

theorem failoverLoop_firstOk (behavior : ProviderType → Except String AICompletionResponse)
    (l : List ProviderType) (t : ProviderType) (r : AICompletionResponse)
    (h : firstOk behavior l = some (t, r)) :
    (failoverLoop behavior l).1 = l.takeWhile (fun u => !(isOkB behavior u)) ++ [t] ∧
    (failoverLoop behavior l).2.2 = some r := by
  induction l with
  | nil => cases h
  | cons u rest ih =>
    cases hb : behavior u with
    | ok v =>
      have huv : u = t ∧ v = r := by
        have h' := h
        simp only [firstOk, hb, Option.some.injEq, Prod.mk.injEq] at h'
        exact h'
      obtain ⟨rfl, rfl⟩ := huv
      constructor
      · simp [failoverLoop, hb, List.takeWhile, isOkB]
      · simp [failoverLoop, hb]
    | error m =>
      have h' : firstOk behavior rest = some (t, r) := by
        simpa only [firstOk, hb] using h
      obtain ⟨h1, h2⟩ := ih h'
      constructor
      · simp [failoverLoop, hb, List.takeWhile, isOkB, h1]
      · simp [failoverLoop, hb, h2]

theorem priorityAscending :
    List.Pairwise (fun a b => priority a < priority b) getProvidersByPriority := by
  decide

theorem availableAscending (cfg : ProviderType → Bool) :
    List.Pairwise (fun a b => priority a < priority b) (getAvailableAdapters cfg) :=
  priorityAscending.filter cfg

theorem visionAscending (cfg : ProviderType → Bool) :
    List.Pairwise (fun a b => priority a < priority b) (getVisionAdapters cfg) :=
  (availableAscending cfg).filter adapterSupportsVision

theorem nodup_of_ascending {l : List ProviderType}
    (h : List.Pairwise (fun a b => priority a < priority b) l) : l.Nodup :=
  h.imp (fun hab => fun he => absurd (he ▸ hab) (lt_irrefl _))

theorem generateContent_fst (cfg : ProviderType → Bool)
    (behavior : ProviderType → Except String AICompletionResponse) :
    (generateContent cfg behavior).1 =
      (failoverLoop behavior (getAvailableAdapters cfg)).1 := by
  unfold generateContent
  by_cases h : (getAvailableAdapters cfg).isEmpty
  · have h0 : getAvailableAdapters cfg = [] := by
      cases hl : getAvailableAdapters cfg
      · rfl
      · rw [hl] at h; cases h
    simp [h, h0, failoverLoop]
  · rcases hfl : failoverLoop behavior (getAvailableAdapters cfg) with ⟨att, errs, res⟩
    cases res <;> simp [h, hfl]

theorem generateContent_ok (cfg : ProviderType → Bool)
    (behavior : ProviderType → Except String AICompletionResponse)
    (r : AICompletionResponse)
    (h2 : (failoverLoop behavior (getAvailableAdapters cfg)).2.2 = some r)
    (hne : getAvailableAdapters cfg ≠ []) :
    (generateContent cfg behavior).2 = .ok r := by
  unfold generateContent
  have h : (getAvailableAdapters cfg).isEmpty = false := by
    cases hl : getAvailableAdapters cfg
    · exact absurd hl hne
    · rfl
  rcases hfl : failoverLoop behavior (getAvailableAdapters cfg) with ⟨att, errs, res⟩
  rw [hfl] at h2
  cases res with
  | none => cases h2
  | some r' =>
    have : r' = r := by simpa using h2
    subst this
    simp [h, hfl]

theorem analyzeImages_fst (cfg : ProviderType → Bool)
    (behavior : ProviderType → Except String AICompletionResponse) :
    (analyzeImages cfg behavior).1 =
      (failoverLoop behavior (getVisionAdapters cfg)).1 := by
  unfold analyzeImages
  by_cases h : (getVisionAdapters cfg).isEmpty
  · have h0 : getVisionAdapters cfg = [] := by
      cases hl : getVisionAdapters cfg
      · rfl
      · rw [hl] at h; cases h
    simp [h, h0, failoverLoop]
  · rcases hfl : failoverLoop behavior (getVisionAdapters cfg) with ⟨att, errs, res⟩
    cases res <;> simp [h, hfl]

theorem analyzeImages_ok (cfg : ProviderType → Bool)
    (behavior : ProviderType → Except String AICompletionResponse)
    (r : AICompletionResponse)
    (h2 : (failoverLoop behavior (getVisionAdapters cfg)).2.2 = some r)
    (hne : getVisionAdapters cfg ≠ []) :
    (analyzeImages cfg behavior).2 = .ok r := by
  unfold analyzeImages
  have h : (getVisionAdapters cfg).isEmpty = false := by
    cases hl : getVisionAdapters cfg
    · exact absurd hl hne
    · rfl
  rcases hfl : failoverLoop behavior (getVisionAdapters cfg) with ⟨att, errs, res⟩
  rw [hfl] at h2
  cases res with
  | none => cases h2
  | some r' =>
    have : r' = r := by simpa using h2
    subst this
    simp [h, hfl]

/-! §T2  Claim theorems for the failover orchestrator (C1, C3, C8). -/

/-- C1: for every non-empty configured-provider list and every request,
`generateContent` and `analyzeImages` attempt adapters one at a time in
strictly ascending priority order as given by `getProvidersByPriority`
(the attempt trace is a prefix of the capability-filtered priority list
and its priorities are strictly increasing), attempt each adapter at most
once, and when some attempted adapter succeeds they return the first
successful adapter's result, the trace ending at that adapter so that no
later adapter is invoked. -/
theorem failover_ascending_first_success (cfg : ProviderType → Bool)
    (behavior vbehavior : ProviderType → Except String AICompletionResponse)
    (hne : getAvailableAdapters cfg ≠ []) :
    ((∃ rest, getAvailableAdapters cfg = (generateContent cfg behavior).1 ++ rest) ∧
      List.Pairwise (fun a b => priority a < priority b) (generateContent cfg behavior).1 ∧
      (generateContent cfg behavior).1.Nodup ∧
      (∀ t r, firstOk behavior (getAvailableAdapters cfg) = some (t, r) →
        (generateContent cfg behavior).2 = .ok r ∧
        (generateContent cfg behavior).1 =
          (getAvailableAdapters cfg).takeWhile (fun u => !(isOkB behavior u)) ++ [t])) ∧
    (getVisionAdapters cfg ≠ [] →
      (∃ rest, getVisionAdapters cfg = (analyzeImages cfg vbehavior).1 ++ rest) ∧
      List.Pairwise (fun a b => priority a < priority b) (analyzeImages cfg vbehavior).1 ∧
      (analyzeImages cfg vbehavior).1.Nodup ∧
      (∀ t r, firstOk vbehavior (getVisionAdapters cfg) = some (t, r) →
        (analyzeImages cfg vbehavior).2 = .ok r ∧
        (analyzeImages cfg vbehavior).1 =
          (getVisionAdapters cfg).takeWhile (fun u => !(isOkB vbehavior u)) ++ [t])) := by
  constructor
  · obtain ⟨rest, hrest⟩ := failoverLoop_trace_le behavior (getAvailableAdapters cfg)
    have hfst := generateContent_fst cfg behavior
    have hsub : (generateContent cfg behavior).1.Sublist (getAvailableAdapters cfg) := by
      rw [hfst]
      conv_rhs => rw [hrest]
      exact List.sublist_append_left _ _
    have hpw := (availableAscending cfg).sublist hsub
    refine ⟨⟨rest, by rw [hfst]; exact hrest⟩, hpw, nodup_of_ascending hpw, ?_⟩
    intro t r hf
    obtain ⟨h1, h2⟩ := failoverLoop_firstOk behavior _ t r hf
    exact ⟨generateContent_ok cfg behavior r h2 hne, by rw [hfst]; exact h1⟩
  · intro hvne
    obtain ⟨rest, hrest⟩ := failoverLoop_trace_le vbehavior (getVisionAdapters cfg)
    have hfst := analyzeImages_fst cfg vbehavior
    have hsub : (analyzeImages cfg vbehavior).1.Sublist (getVisionAdapters cfg) := by
      rw [hfst]
      conv_rhs => rw [hrest]
      exact List.sublist_append_left _ _
    have hpw := (visionAscending cfg).sublist hsub
    refine ⟨⟨rest, by rw [hfst]; exact hrest⟩, hpw, nodup_of_ascending hpw, ?_⟩
    intro t r hf
    obtain ⟨h1, h2⟩ := failoverLoop_firstOk vbehavior _ t r hf
    exact ⟨analyzeImages_ok cfg vbehavior r h2 hvne, by rw [hfst]; exact h1⟩

/-- Sample configuration for witnesses: Google and Mistral have API keys. -/
def cfgW : ProviderType → Bool
  | .google => true
  | .mistral => true
  | _ => false

def respW : AICompletionResponse :=
  { content := "ok", model := "test-model" }

/-- Sample text behaviour: Google rate-limited, Mistral succeeds. -/
def behW : ProviderType → Except String AICompletionResponse
  | .mistral => .ok respW
  | _ => .error "429 Too Many Requests"

/-- Sample vision behaviour: Google succeeds. -/
def vbehW : ProviderType → Except String AICompletionResponse
  | .google => .ok respW
  | _ => .error "429 Too Many Requests"

theorem failover_ascending_first_success_witness :
    getAvailableAdapters cfgW ≠ [] ∧
    (((∃ rest, getAvailableAdapters cfgW = (generateContent cfgW behW).1 ++ rest) ∧
      List.Pairwise (fun a b => priority a < priority b) (generateContent cfgW behW).1 ∧
      (generateContent cfgW behW).1.Nodup ∧
      (∀ t r, firstOk behW (getAvailableAdapters cfgW) = some (t, r) →
        (generateContent cfgW behW).2 = .ok r ∧
        (generateContent cfgW behW).1 =
          (getAvailableAdapters cfgW).takeWhile (fun u => !(isOkB behW u)) ++ [t])) ∧
    (getVisionAdapters cfgW ≠ [] →
      (∃ rest, getVisionAdapters cfgW = (analyzeImages cfgW vbehW).1 ++ rest) ∧
      List.Pairwise (fun a b => priority a < priority b) (analyzeImages cfgW vbehW).1 ∧
      (analyzeImages cfgW vbehW).1.Nodup ∧
      (∀ t r, firstOk vbehW (getVisionAdapters cfgW) = some (t, r) →
        (analyzeImages cfgW vbehW).2 = .ok r ∧
        (analyzeImages cfgW vbehW).1 =
          (getVisionAdapters cfgW).takeWhile (fun u => !(isOkB vbehW u)) ++ [t]))) :=
  ⟨by decide, failover_ascending_first_success cfgW behW vbehW (by decide)⟩

/-- C3: when every adapter of the non-empty capability-filtered list fails,
the orchestrator fails with the aggregate error whose message is the
header followed by exactly one `providerId: message` entry per attempted
adapter, in attempt order — and the attempt trace is the whole list. -/
theorem all_providers_failed_aggregate (cfg : ProviderType → Bool)
    (behavior vbehavior : ProviderType → Except String AICompletionResponse)
    (h1 : getAvailableAdapters cfg ≠ [])
    (h2 : ∀ t ∈ getAvailableAdapters cfg, ∃ m, behavior t = .error m)
    (h3 : getVisionAdapters cfg ≠ [])
    (h4 : ∀ t ∈ getVisionAdapters cfg, ∃ m, vbehavior t = .error m) :
    generateContent cfg behavior =
      (getAvailableAdapters cfg,
        .error (aggTextHeader ++ String.intercalate "\n"
          ((getAvailableAdapters cfg).map (errEntry behavior)))) ∧
    analyzeImages cfg vbehavior =
      (getVisionAdapters cfg,
        .error (aggVisionHeader ++ String.intercalate "\n"
          ((getVisionAdapters cfg).map (errEntry vbehavior)))) := by
  constructor
  · have hfl := failoverLoop_allFail behavior _ h2
    have h : (getAvailableAdapters cfg).isEmpty = false := by
      cases hl : getAvailableAdapters cfg
      · exact absurd hl h1
      · rfl
    unfold generateContent
    simp [h, hfl]
  · have hfl := failoverLoop_allFail vbehavior _ h4
    have h : (getVisionAdapters cfg).isEmpty = false := by
      cases hl : getVisionAdapters cfg
      · exact absurd hl h3
      · rfl
    unfold analyzeImages
    simp [h, hfl]

def behFailW : ProviderType → Except String AICompletionResponse :=
  fun _ => .error "insufficient_quota"

theorem all_providers_failed_aggregate_witness :
    (getAvailableAdapters cfgW ≠ [] ∧ getVisionAdapters cfgW ≠ []) ∧
    (generateContent cfgW behFailW =
      (getAvailableAdapters cfgW,
        .error (aggTextHeader ++ String.intercalate "\n"
          ((getAvailableAdapters cfgW).map (errEntry behFailW)))) ∧
    analyzeImages cfgW behFailW =
      (getVisionAdapters cfgW,
        .error (aggVisionHeader ++ String.intercalate "\n"
          ((getVisionAdapters cfgW).map (errEntry behFailW))))) :=
  ⟨⟨by decide, by decide⟩,
    all_providers_failed_aggregate cfgW behFailW behFailW (by decide)
      (fun t _ => ⟨"insufficient_quota", rfl⟩) (by decide)
      (fun t _ => ⟨"insufficient_quota", rfl⟩)⟩

theorem string_head_ne {a b : String} (h : a.data.head? ≠ b.data.head?) : a ≠ b :=
  fun e => h (congrArg (fun s : String => s.data.head?) e)

theorem string_append_data (a b : String) : (a ++ b).data = a.data ++ b.data := by
  cases a
  cases b
  rfl

theorem noText_ne_agg (s : String) : noTextProvidersMsg ≠ aggTextHeader ++ s := by
  apply string_head_ne
  rw [string_append_data]
  intro h
  have h2 : (some 'N' : Option Char) = some 'A' := h
  exact absurd h2 (by decide)

theorem noVision_ne_agg (s : String) : noVisionProvidersMsg ≠ aggVisionHeader ++ s := by
  apply string_head_ne
  rw [string_append_data]
  intro h
  have h2 : (some 'N' : Option Char) = some 'A' := h
  exact absurd h2 (by decide)

/-- C8: when zero adapters are configured for the requested capability the
orchestrator fails immediately with the configuration error — the attempt
trace is empty, so no adapter is invoked — and that message differs from
every possible aggregate all-providers-failed message. -/
theorem empty_capability_config_error (cfg cfg2 : ProviderType → Bool)
    (behavior vbehavior : ProviderType → Except String AICompletionResponse)
    (h1 : getAvailableAdapters cfg = [])
    (h2 : getVisionAdapters cfg2 = []) :
    generateContent cfg behavior = ([], .error noTextProvidersMsg) ∧
    analyzeImages cfg2 vbehavior = ([], .error noVisionProvidersMsg) ∧
    (∀ s, noTextProvidersMsg ≠ aggTextHeader ++ s) ∧
    (∀ s, noVisionProvidersMsg ≠ aggVisionHeader ++ s) := by
  refine ⟨?_, ?_, noText_ne_agg, noVision_ne_agg⟩
  · unfold generateContent
    simp [h1]
  · unfold analyzeImages
    simp [h2]

/-- Configuration with only Groq (a text-only provider) present. -/
def cfgGroqOnly : ProviderType → Bool
  | .groq => true
  | _ => false

theorem empty_capability_config_error_witness :
    (getAvailableAdapters (fun _ => false) = [] ∧
      getVisionAdapters cfgGroqOnly = []) ∧
    (generateContent (fun _ => false) behFailW = ([], .error noTextProvidersMsg) ∧
    analyzeImages cfgGroqOnly behFailW = ([], .error noVisionProvidersMsg) ∧
    (∀ s, noTextProvidersMsg ≠ aggTextHeader ++ s) ∧
    (∀ s, noVisionProvidersMsg ≠ aggVisionHeader ++ s)) :=
  ⟨⟨by decide, by decide⟩,
    empty_capability_config_error (fun _ => false) cfgGroqOnly behFailW behFailW
      (by decide) (by decide)⟩

/-! §5  Pipeline data model (`src/types/pipeline.ts`).

Fields populated by the duck-typed normalisation code keep type `Json`:
the TS annotations promise strings/string-arrays, but the runtime code
copies whatever the parsed JSON held, and the claims quantify over every
upstream response.  `Array.isArray`-guarded fields are honest Lean lists
(of arbitrary `Json` elements). -/

inductive StageStatus where
  | pending | running | completed | failed | skipped
deriving DecidableEq

structure StageResult (α : Type) where
  status : StageStatus
  data : Option α := none
  error : Option String := none
  durationMs : Nat := 0

inductive Condition where
  | new | used | refurbished
deriving DecidableEq

inductive Lang where
  | pl | en | de
deriving DecidableEq

structure VisionAnalysis where
  productType : Json
  detectedBrand : Json := .undefined
  detectedModel : Json := .undefined
  colors : List Json := []
  materials : List Json := []
  style : Json := .undefined
  condition : Option Condition := none
  features : List Json := []
  suggestedCategories : List Json := []
  confidence : ℚ
  rawResponse : String := ""

structure ContentGeneration where
  name : Json
  shortDescription : Json
  longDescription : Json
  htmlDescription : Json
  seoTitle : Json
  seoDescription : Json
  keywords : List Json := []
  attributes : Json := .obj []
  tags : List Json := []
  imageAlts : List Json := []
  rawResponse : String := ""
  viamallSlug : Json := .undefined

structure ImageInput where
  url : String
  mimeType : String
  filename : String
deriving DecidableEq

/-- `PipelineInput.rawData`.  The Zod schema has no `currency` field, but
`buildUnifiedProduct` reads `rawData.currency`, so the model carries it. -/
structure RawData where
  ean : Option String := none
  sku : Option String := none
  priceGross : Option ℚ := none
  priceNet : Option ℚ := none
  vatRate : Option ℚ := none
  brand : Option String := none
  manufacturer : Option String := none
  quantity : Option Nat := none
  weight : Option ℚ := none
  categories : Option (List String) := none
  currency : Option String := none
deriving DecidableEq

structure PipelineInput where
  images : List ImageInput
  userHint : Option String := none
  rawData : Option RawData := none
deriving DecidableEq

structure ImagePayload where
  base64 : String
  mimeType : String
deriving DecidableEq

structure VisionStageInput where
  images : List ImagePayload
  userHint : Option String := none
  language : Option Lang := none
deriving DecidableEq

/-! §6  Vision stage (`src/services/pipeline/vision-stage.ts`).

The prompt strings built by `buildVisionPrompt` flow only into the
provider call, which is the oracle `vbehavior`, so their construction
is not repeated here. -/

/-- `Array.isArray(x) ? x : []`. -/
def asArr : Json → List Json
  | .arr l => l
  | _ => []

/-- `isValidCondition` from the vision stage, fused with the conditional
`isValidCondition(parsed.condition) ? parsed.condition : undefined`. -/
def isValidCondition : Json → Option Condition
  | .str s =>
    if s = "new" then some .new
    else if s = "used" then some .used
    else if s = "refurbished" then some .refurbished
    else none
  | _ => none

/-- The VisionAnalysis object literal of `runVisionStage` (file lines
39-55), in source evaluation order; each property access throws iff
`parsed` is JS `null`. -/
def normalizeVision (parsed : Json) (rawContent : String) :
    Except String VisionAnalysis := do
  let pt ← parsed.getProp "productType"
  let db ← parsed.getProp "detectedBrand"
  let dm ← parsed.getProp "detectedModel"
  let pc ← parsed.getProp "colors"
  let pm ← parsed.getProp "materials"
  let ps ← parsed.getProp "style"
  let pcond ← parsed.getProp "condition"
  let pf ← parsed.getProp "features"
  let psc ← parsed.getProp "suggestedCategories"
  let pconf ← parsed.getProp "confidence"
  pure {
    productType := jsOr pt (Json.str "Unknown Product")
    detectedBrand := jsOr db Json.undefined
    detectedModel := jsOr dm Json.undefined
    colors := asArr pc
    materials := asArr pm
    style := jsOr ps Json.undefined
    condition := isValidCondition pcond
    features := asArr pf
    suggestedCategories := asArr psc
    confidence := if pconf.isNum then max 0 (min 1 pconf.asNum) else 1/2
    rawResponse := rawContent }

/-- `runVisionStage`: call the vision failover, parse the response text,
normalise with defaults; any exception is caught into a failed result. -/
def runVisionStage (cfg : ProviderType → Bool)
    (vbehavior : ProviderType → Except String AICompletionResponse)
    (jparse : String → Option Json)
    (_input : VisionStageInput) : StageResult VisionAnalysis :=
  match (analyzeImages cfg vbehavior).2 with
  | .error e =>
    { status := .failed, error := some ("Vision analysis failed: " ++ e) }
  | .ok response =>
    let jsonStr := extractJsonFromMarkdown response.content
    let parsed := safeJsonParse jparse jsonStr (Json.obj [])
    match normalizeVision parsed response.content with
    | .ok visionAnalysis => { status := .completed, data := some visionAnalysis }
    | .error e =>
      { status := .failed, error := some ("Vision analysis failed: " ++ e) }

/-! §T3  Claim theorems for the vision stage (C6, C7). -/

/-- The value the vision/content stages feed to their normalisation:
response text through fence extraction and `safeJsonParse`. -/
def parsedOf (jparse : String → Option Json) (resp : AICompletionResponse) : Json :=
  safeJsonParse jparse (extractJsonFromMarkdown resp.content) (Json.obj [])

/-- The VisionAnalysis that normalisation produces from a non-null parsed
value, expressed with the total accessor `Json.optIdx`. -/
def mkVision (parsed : Json) (rawContent : String) : VisionAnalysis := {
  productType := jsOr (parsed.optIdx "productType") (Json.str "Unknown Product")
  detectedBrand := jsOr (parsed.optIdx "detectedBrand") Json.undefined
  detectedModel := jsOr (parsed.optIdx "detectedModel") Json.undefined
  colors := asArr (parsed.optIdx "colors")
  materials := asArr (parsed.optIdx "materials")
  style := jsOr (parsed.optIdx "style") Json.undefined
  condition := isValidCondition (parsed.optIdx "condition")
  features := asArr (parsed.optIdx "features")
  suggestedCategories := asArr (parsed.optIdx "suggestedCategories")
  confidence := if (parsed.optIdx "confidence").isNum
    then max 0 (min 1 (parsed.optIdx "confidence").asNum) else 1/2
  rawResponse := rawContent }

theorem normalizeVision_ok (parsed : Json) (raw : String) (va : VisionAnalysis)
    (h : normalizeVision parsed raw = .ok va) : va = mkVision parsed raw := by
  cases parsed with
  | undefined => exact Except.noConfusion h
  | null => exact Except.noConfusion h
  | bool b => exact (Except.ok.inj h).symm
  | num q => exact (Except.ok.inj h).symm
  | str s => exact (Except.ok.inj h).symm
  | arr l => exact (Except.ok.inj h).symm
  | obj fs => exact (Except.ok.inj h).symm

theorem runVisionStage_of_ok (cfg : ProviderType → Bool)
    (vbehavior : ProviderType → Except String AICompletionResponse)
    (jparse : String → Option Json) (input : VisionStageInput)
    (resp : AICompletionResponse)
    (hok : (analyzeImages cfg vbehavior).2 = .ok resp) :
    runVisionStage cfg vbehavior jparse input =
      (match normalizeVision (parsedOf jparse resp) resp.content with
       | .ok visionAnalysis => { status := .completed, data := some visionAnalysis }
       | .error e =>
         { status := .failed, error := some ("Vision analysis failed: " ++ e) }) := by
  unfold runVisionStage
  rw [hok]
  rfl

theorem runVisionStage_of_error (cfg : ProviderType → Bool)
    (vbehavior : ProviderType → Except String AICompletionResponse)
    (jparse : String → Option Json) (input : VisionStageInput) (e : String)
    (herr : (analyzeImages cfg vbehavior).2 = .error e) :
    runVisionStage cfg vbehavior jparse input =
      { status := .failed, error := some ("Vision analysis failed: " ++ e) } := by
  unfold runVisionStage
  rw [herr]

theorem asArr_of_not_arr (j : Json) (h : j.isArr = false) : asArr j = [] := by
  cases j <;> simp_all [Json.isArr, asArr]

/-- C6: whenever the vision stage completes with data, the produced
VisionAnalysis has confidence in [0,1]; a numeric parsed confidence is
clamped into [0,1] and a non-numeric or absent one yields 0.5; every
list field equals the parsed array and defaults to empty when the parsed
value is missing or not an array. -/
theorem vision_confidence_clamped (cfg : ProviderType → Bool)
    (vbehavior : ProviderType → Except String AICompletionResponse)
    (jparse : String → Option Json) (input : VisionStageInput)
    (resp : AICompletionResponse) (va : VisionAnalysis)
    (hok : (analyzeImages cfg vbehavior).2 = .ok resp)
    (hva : (runVisionStage cfg vbehavior jparse input).data = some va) :
    (0 ≤ va.confidence ∧ va.confidence ≤ 1) ∧
    (∀ q, (parsedOf jparse resp).optIdx "confidence" = Json.num q →
      va.confidence = max 0 (min 1 q)) ∧
    (((parsedOf jparse resp).optIdx "confidence").isNum = false →
      va.confidence = 1/2) ∧
    (va.colors = asArr ((parsedOf jparse resp).optIdx "colors") ∧
      va.materials = asArr ((parsedOf jparse resp).optIdx "materials") ∧
      va.features = asArr ((parsedOf jparse resp).optIdx "features") ∧
      va.suggestedCategories =
        asArr ((parsedOf jparse resp).optIdx "suggestedCategories")) ∧
    (((parsedOf jparse resp).optIdx "colors").isArr = false → va.colors = []) ∧
    (((parsedOf jparse resp).optIdx "materials").isArr = false →
      va.materials = []) ∧
    (((parsedOf jparse resp).optIdx "features").isArr = false →
      va.features = []) ∧
    (((parsedOf jparse resp).optIdx "suggestedCategories").isArr = false →
      va.suggestedCategories = []) := by
  rw [runVisionStage_of_ok cfg vbehavior jparse input resp hok] at hva
  have hmk : va = mkVision (parsedOf jparse resp) resp.content := by
    cases hn : normalizeVision (parsedOf jparse resp) resp.content with
    | ok v =>
      rw [hn] at hva
      have hv : v = va := by simpa using hva
      exact hv ▸ normalizeVision_ok _ _ _ hn
    | error e => rw [hn] at hva; cases hva
  subst hmk
  refine ⟨?_, ?_, ?_, ⟨rfl, rfl, rfl, rfl⟩, ?_, ?_, ?_, ?_⟩
  · by_cases hn : ((parsedOf jparse resp).optIdx "confidence").isNum
    · simp only [mkVision, hn, if_true]
      exact ⟨le_max_left _ _, max_le (by norm_num) (min_le_left _ _)⟩
    · simp only [mkVision, hn, if_false, Bool.false_eq_true]
      norm_num
  · intro q hq
    simp [mkVision, hq, Json.isNum, Json.asNum]
  · intro hn
    simp [mkVision, hn]
  · exact fun h => asArr_of_not_arr _ h
  · exact fun h => asArr_of_not_arr _ h
  · exact fun h => asArr_of_not_arr _ h
  · exact fun h => asArr_of_not_arr _ h

def visInputW : VisionStageInput :=
  { images := [{ base64 := "aW1n", mimeType := "image/jpeg" }] }

/-- A provider response whose text is the JSON document with
confidence 2 (out of range) and a malformed colors field. -/
def respConf : AICompletionResponse :=
  { content := "\x7b\"confidence\":2,\"colors\":\"red\"\x7d", model := "gemma-3-27b-it" }

def vbehConf : ProviderType → Except String AICompletionResponse :=
  fun _ => .ok respConf

/-- JSON.parse on exactly the document of `respConf`. -/
def jparseConf : String → Option Json := fun s =>
  if s = "\x7b\"confidence\":2,\"colors\":\"red\"\x7d" then
    some (Json.obj [("confidence", Json.num 2), ("colors", Json.str "red")])
  else none

theorem vision_confidence_clamped_witness :
    ((analyzeImages cfgW vbehConf).2 = .ok respConf ∧
      (runVisionStage cfgW vbehConf jparseConf visInputW).data =
        some (mkVision (Json.obj [("confidence", Json.num 2),
          ("colors", Json.str "red")]) respConf.content)) ∧
    ((0 ≤ (mkVision (Json.obj [("confidence", Json.num 2),
          ("colors", Json.str "red")]) respConf.content).confidence ∧
        (mkVision (Json.obj [("confidence", Json.num 2),
          ("colors", Json.str "red")]) respConf.content).confidence ≤ 1) ∧
      (∀ q, (parsedOf jparseConf respConf).optIdx "confidence" = Json.num q →
        (mkVision (Json.obj [("confidence", Json.num 2),
          ("colors", Json.str "red")]) respConf.content).confidence =
          max 0 (min 1 q)) ∧
      (((parsedOf jparseConf respConf).optIdx "confidence").isNum = false →
        (mkVision (Json.obj [("confidence", Json.num 2),
          ("colors", Json.str "red")]) respConf.content).confidence = 1/2) ∧
      ((mkVision (Json.obj [("confidence", Json.num 2),
          ("colors", Json.str "red")]) respConf.content).colors =
          asArr ((parsedOf jparseConf respConf).optIdx "colors") ∧
        (mkVision (Json.obj [("confidence", Json.num 2),
          ("colors", Json.str "red")]) respConf.content).materials =
          asArr ((parsedOf jparseConf respConf).optIdx "materials") ∧
        (mkVision (Json.obj [("confidence", Json.num 2),
          ("colors", Json.str "red")]) respConf.content).features =
          asArr ((parsedOf jparseConf respConf).optIdx "features") ∧
        (mkVision (Json.obj [("confidence", Json.num 2),
          ("colors", Json.str "red")]) respConf.content).suggestedCategories =
          asArr ((parsedOf jparseConf respConf).optIdx "suggestedCategories")) ∧
      (((parsedOf jparseConf respConf).optIdx "colors").isArr = false →
        (mkVision (Json.obj [("confidence", Json.num 2),
          ("colors", Json.str "red")]) respConf.content).colors = []) ∧
      (((parsedOf jparseConf respConf).optIdx "materials").isArr = false →
        (mkVision (Json.obj [("confidence", Json.num 2),
          ("colors", Json.str "red")]) respConf.content).materials = []) ∧
      (((parsedOf jparseConf respConf).optIdx "features").isArr = false →
        (mkVision (Json.obj [("confidence", Json.num 2),
          ("colors", Json.str "red")]) respConf.content).features = []) ∧
      (((parsedOf jparseConf respConf).optIdx "suggestedCategories").isArr = false →
        (mkVision (Json.obj [("confidence", Json.num 2),
          ("colors", Json.str "red")]) respConf.content).suggestedCategories = [])) :=
  ⟨⟨rfl, rfl⟩, vision_confidence_clamped cfgW vbehConf jparseConf visInputW
    respConf _ rfl rfl⟩

/-- A provider response whose text is the JSON document `null` — it parses
successfully to JS `null`. -/
def respNull : AICompletionResponse :=
  { content := "null", model := "gemma-3-27b-it" }

def vbehNull : ProviderType → Except String AICompletionResponse :=
  fun _ => .ok respNull

/-- JSON.parse on exactly the document `null`. -/
def jparseNull : String → Option Json := fun s =>
  if s = "null" then some Json.null else none

/-- C7 counterexample: the provider call succeeds (text `null`, valid
JSON with every field missing), yet the vision stage returns `failed`,
because `parsed.productType` throws on JS `null`; so a stage failure can
arise without the provider call throwing, contradicting the claim. -/
theorem vision_null_parse_counterexample :
    (analyzeImages cfgW vbehNull).2 = .ok respNull ∧
    runVisionStage cfgW vbehNull jparseNull visInputW =
      { status := .failed,
        error := some
          "Vision analysis failed: TypeError: Cannot read properties of null" } :=
  ⟨rfl, rfl⟩

/-- C7 (amended): for every provider response whose text fails to parse as
JSON, or parses to a non-null (and non-undefined) value with missing
fields, the vision stage still returns `completed` — on parse failure
with the fully default-filled VisionAnalysis (`Unknown Product`,
confidence 0.5, empty lists) — and the stage returns `failed` when the
provider call itself throws or when the parsed JSON value is `null`
(property access on `null` throws and is caught as a stage failure). -/
theorem vision_stage_parse_recovery (cfg : ProviderType → Bool)
    (vbehavior : ProviderType → Except String AICompletionResponse)
    (jparse : String → Option Json) (input : VisionStageInput) :
    (∀ resp, (analyzeImages cfg vbehavior).2 = .ok resp →
      parsedOf jparse resp ≠ Json.null → parsedOf jparse resp ≠ Json.undefined →
      (runVisionStage cfg vbehavior jparse input).status = .completed ∧
      (jparse (extractJsonFromMarkdown resp.content) = none →
        (runVisionStage cfg vbehavior jparse input).data = some
          { productType := Json.str "Unknown Product"
            confidence := 1/2
            rawResponse := resp.content })) ∧
    (∀ resp, (analyzeImages cfg vbehavior).2 = .ok resp →
      parsedOf jparse resp = Json.null →
      (runVisionStage cfg vbehavior jparse input).status = .failed) ∧
    (∀ e, (analyzeImages cfg vbehavior).2 = .error e →
      (runVisionStage cfg vbehavior jparse input).status = .failed ∧
      (runVisionStage cfg vbehavior jparse input).error =
        some ("Vision analysis failed: " ++ e)) := by
  refine ⟨?_, ?_, ?_⟩
  · intro resp hok hnn hnu
    rw [runVisionStage_of_ok cfg vbehavior jparse input resp hok]
    have hnorm : ∃ va, normalizeVision (parsedOf jparse resp) resp.content = .ok va := by
      cases hp : parsedOf jparse resp with
      | null => exact absurd hp hnn
      | undefined => exact absurd hp hnu
      | bool b => exact ⟨_, rfl⟩
      | num q => exact ⟨_, rfl⟩
      | str s => exact ⟨_, rfl⟩
      | arr l => exact ⟨_, rfl⟩
      | obj fs => exact ⟨_, rfl⟩
    obtain ⟨va, hva⟩ := hnorm
    rw [hva]
    refine ⟨rfl, ?_⟩
    intro hnone
    have hp : parsedOf jparse resp = Json.obj [] := by
      unfold parsedOf safeJsonParse
      rw [hnone]
    rw [hp] at hva
    have : va = mkVision (Json.obj []) resp.content := normalizeVision_ok _ _ _ hva
    subst this
    rfl
  · intro resp hok hp
    rw [runVisionStage_of_ok cfg vbehavior jparse input resp hok, hp]
    rfl
  · intro e herr
    rw [runVisionStage_of_error cfg vbehavior jparse input e herr]
    exact ⟨rfl, rfl⟩

/-- A provider response whose text is not JSON at all. -/
def respGarbled : AICompletionResponse :=
  { content := "I am sorry, I cannot analyse these images.", model := "gemma-3-27b-it" }

def vbehGarbled : ProviderType → Except String AICompletionResponse :=
  fun _ => .ok respGarbled

/-- JSON.parse throwing on every document (the garbled text is not JSON). -/
def jparseNone : String → Option Json := fun _ => none

theorem vision_stage_parse_recovery_witness :
    ((analyzeImages cfgW vbehGarbled).2 = .ok respGarbled ∧
      parsedOf jparseNone respGarbled ≠ Json.null ∧
      parsedOf jparseNone respGarbled ≠ Json.undefined ∧
      jparseNone (extractJsonFromMarkdown respGarbled.content) = none) ∧
    ((runVisionStage cfgW vbehGarbled jparseNone visInputW).status = .completed ∧
      (jparseNone (extractJsonFromMarkdown respGarbled.content) = none →
        (runVisionStage cfgW vbehGarbled jparseNone visInputW).data = some
          { productType := Json.str "Unknown Product"
            confidence := 1/2
            rawResponse := respGarbled.content })) :=
  ⟨⟨rfl, fun h => Json.noConfusion h, fun h => Json.noConfusion h, rfl⟩,
    (vision_stage_parse_recovery cfgW vbehGarbled jparseNone visInputW).1
      respGarbled rfl (fun h => Json.noConfusion h) (fun h => Json.noConfusion h)⟩

/-! §7  Content stage (`src/services/pipeline/content-stage.ts`).

As with the vision stage, prompt construction (`buildContentPrompt`)
flows only into the provider-call oracle and is not repeated. -/

structure ContentStageInput where
  visionAnalysis : VisionAnalysis
  userHint : Option String := none
  rawData : Option RawData := none
  language : Option Lang := none
  imageCount : Option Nat := none

/-- Whether `pat` starts the list. -/
def startsWith : List Char → List Char → Bool
  | _, [] => true
  | [], _ :: _ => false
  | c :: rest, p :: prest => c == p && startsWith rest prest

/-- JS `String.prototype.includes` over character lists. -/
def containsSub (pat : List Char) : List Char → Bool
  | [] => pat.isEmpty
  | c :: rest => startsWith (c :: rest) pat || containsSub pat rest

/-- Split on runs of two or more newlines, the regex split of
`formatAsHtml`.  Fueled by the list length so the kernel can evaluate it;
every recursive call shortens the list, so the fuel never runs out. -/
def splitParasGo : Nat → List Char → List Char → List (List Char)
  | _, cur, [] => [cur.reverse]
  | 0, cur, rest => [cur.reverse ++ rest]
  | fuel + 1, cur, c :: rest =>
    if c = '\n' then
      match rest with
      | d :: _ =>
        if d = '\n' then
          cur.reverse :: splitParasGo fuel [] (rest.dropWhile (fun x => x = '\n'))
        else splitParasGo fuel (c :: cur) rest
      | [] => splitParasGo fuel (c :: cur) []
    else splitParasGo fuel (c :: cur) rest

def splitParas (l : List Char) : List (List Char) :=
  splitParasGo l.length [] l

/-- `formatAsHtml` from the content stage.  The argument is dynamically
typed in JS: falsy values give the empty string; a string is wrapped into
paragraphs unless it already holds a `p`/`ul` tag; an array satisfies the
`includes` membership checks and is returned as-is when one element is
exactly the tag string, and otherwise throws at `.split`; all other
truthy values throw at `.includes`. -/
def formatAsHtml (text : Json) : Except String Json :=
  if !text.truthy then .ok (Json.str "") else
  match text with
  | .str s =>
    if containsSub "<p>".data s.data || containsSub "<ul>".data s.data then
      .ok (.str s)
    else
      .ok (.str (String.intercalate "\n"
        ((splitParas s.data).map (fun p => "<p>" ++ jsTrim (String.mk p) ++ "</p>"))))
  | .arr l =>
    if l.any (fun e => match e with | .str s => s = "<p>" | _ => false) ||
       l.any (fun e => match e with | .str s => s = "<ul>" | _ => false) then
      .ok (.arr l)
    else .error "TypeError: text.split is not a function"
  | _ => .error "TypeError: text.includes is not a function"

def conditionLabel : Condition → String
  | .new => "Nowy"
  | .used => "Używany"
  | .refurbished => "Odnowiony"

/-- `buildDefaultAttributes` from the content stage: attributes derived
from the vision analysis, in source insertion order. -/
def buildDefaultAttributes (vision : VisionAnalysis) : Json :=
  Json.obj (
    (if vision.colors.length > 0 then
      [("Kolor", vision.colors.headD Json.undefined)] ++
      (if vision.colors.length > 1 then
        [("Kolory dodatkowe", Json.str (joinJsList ", " (vision.colors.drop 1)))]
      else [])
    else []) ++
    (if vision.materials.length > 0 then
      [("Materiał", Json.str (joinJsList ", " vision.materials))]
    else []) ++
    (if vision.style.truthy then [("Styl", vision.style)] else []) ++
    (if vision.detectedBrand.truthy then [("Marka", vision.detectedBrand)] else []) ++
    (match vision.condition with
     | some c => [("Stan", Json.str (conditionLabel c))]
     | none => []))

/-- `generateDefaultImageAlts` alt text for position `i`. -/
def altName (productName : Json) (i : Nat) : String :=
  if i = 0 then productName.toJsString ++ " - widok główny"
  else if i = 1 then productName.toJsString ++ " - widok z boku"
  else if i = 2 then productName.toJsString ++ " - szczegół"
  else productName.toJsString ++ " - zdjęcie " ++ toString (i + 1)

def generateDefaultImageAlts (count : Nat) (productName : Json) : List Json :=
  (List.range count).map (fun i => Json.str (altName productName i))

/-- JS `o || d` on an optional count (`input.imageCount || 1`: a present
zero is falsy and still yields the default). -/
def jsOrNat (o : Option Nat) (d : Nat) : Nat :=
  match o with
  | some n => if n = 0 then d else n
  | none => d

def optStrJson : Option String → Json
  | some s => .str s
  | none => .undefined

/-- The ContentGeneration object literal of `runContentStage` (file lines
61-77), in source evaluation order; `hd` keeps the short-circuit of
`parsed.htmlDescription || formatAsHtml(parsed.longDescription || '')`. -/
def normalizeContent (input : ContentStageInput) (parsed : Json) (rawContent : String) :
    Except String ContentGeneration := do
  let promptBrand := jsOr input.visionAnalysis.detectedBrand
    (optStrJson (input.rawData.bind RawData.brand))
  let productType := input.visionAnalysis.productType
  let pn ← parsed.getProp "name"
  let psd ← parsed.getProp "shortDescription"
  let pld ← parsed.getProp "longDescription"
  let phd ← parsed.getProp "htmlDescription"
  let hd ← if phd.truthy then pure phd else formatAsHtml (jsOr pld (Json.str ""))
  let pst ← parsed.getProp "seoTitle"
  let psdesc ← parsed.getProp "seoDescription"
  let pkw ← parsed.getProp "keywords"
  let pattrs ← parsed.getProp "attributes"
  let ptags ← parsed.getProp "tags"
  let palts ← parsed.getProp "imageAlts"
  pure {
    name := jsOr pn (Json.str (jsTrim
      ((jsOr promptBrand (Json.str "")).toJsString ++ " " ++ productType.toJsString)))
    shortDescription := jsOr psd (Json.str "")
    longDescription := jsOr pld (Json.str "")
    htmlDescription := hd
    seoTitle := jsOr pst (jsOr pn (Json.str ""))
    seoDescription := jsOr psdesc (jsOr psd (Json.str ""))
    keywords := asArr pkw
    attributes := if pattrs.isTypeofObject && pattrs.truthy then pattrs
      else buildDefaultAttributes input.visionAnalysis
    tags := asArr ptags
    imageAlts := if palts.isArr then asArr palts
      else generateDefaultImageAlts (jsOrNat input.imageCount 1) (jsOr pn productType)
    rawResponse := rawContent }

/-- `runContentStage`: call the text failover, parse the response text,
normalise with defaults; any exception is caught into a failed result. -/
def runContentStage (cfg : ProviderType → Bool)
    (behavior : ProviderType → Except String AICompletionResponse)
    (jparse : String → Option Json)
    (input : ContentStageInput) : StageResult ContentGeneration :=
  match (generateContentWithFallback cfg behavior).2 with
  | .error e =>
    { status := .failed, error := some ("Content generation failed: " ++ e) }
  | .ok response =>
    let jsonStr := extractJsonFromMarkdown response.content
    let parsed := safeJsonParse jparse jsonStr (Json.obj [])
    match normalizeContent input parsed response.content with
    | .ok contentGeneration =>
      { status := .completed, data := some contentGeneration }
    | .error e =>
      { status := .failed, error := some ("Content generation failed: " ++ e) }

/-! §9  Validation stage (`validation-stage.ts`, snapshot file part_014).

`buildUnifiedProduct` is embedded in full.  The Zod engine
(`UnifiedProductSchema.safeParse`) is an external library, modelled as
the oracle `zodParse` from the draft object to either the parsed,
honestly typed product or the formatted `path: message` issue list; no
claim below depends on the schema semantics themselves. -/

structure ProductImage where
  url : String
  alt : Json
  position : Nat

structure DescriptionDraft where
  short : Json
  long : Json
  html : Json

structure SeoDraft where
  title : Json
  description : Json
  keywords : List Json

structure PricingDraft where
  gross : ℚ
  net : ℚ
  currency : String
  vatRate : ℚ
deriving DecidableEq

structure IdentifiersDraft where
  ean : Option String
  sku : Option String
deriving DecidableEq

structure StockDraft where
  quantity : Nat
  availability : String
deriving DecidableEq

structure MetadataDraft where
  visionConfidence : ℚ
  generatedAt : String
deriving DecidableEq

/-- The object returned by `buildUnifiedProduct` (a `Partial<UnifiedProduct>`
still carrying dynamically typed fields). -/
structure UnifiedProductDraft where
  name : Json
  description : DescriptionDraft
  seo : SeoDraft
  pricing : PricingDraft
  attributes : Json
  categories : List Json
  images : List ProductImage
  identifiers : IdentifiersDraft
  stock : StockDraft
  brand : Json
  manufacturer : Option String
  condition : Condition
  weight : Option ℚ
  tags : List Json
  metadata : MetadataDraft

/-- `truncate` from the validation stage, on a dynamically typed value:
falsy gives the empty string; a string within bounds is kept, a longer
one is cut to `maxLength - 3` characters plus an ellipsis; arrays also
carry `length`/`slice`, so a short array passes through unchanged and a
long one is stringified by the `+ '...'` concatenation; `length` is
`undefined` on the other values, the comparison is false, and `.slice`
throws.  (A plain object carrying its own numeric `length` property
would also pass through; such a value cannot be produced by the parse
chain and is elided.) -/
def truncate (text : Json) (maxLength : Nat) : Except String Json :=
  if !text.truthy then .ok (Json.str "") else
  match text with
  | .str s =>
    if s.length ≤ maxLength then .ok (.str s)
    else .ok (.str (String.mk (s.data.take (maxLength - 3)) ++ "..."))
  | .arr l =>
    if l.length ≤ maxLength then .ok (.arr l)
    else .ok (.str (Json.toJsString (Json.arr (l.take (maxLength - 3))) ++ "..."))
  | _ => .error "TypeError: text.slice is not a function"

/-- JS `o || d` on an optional rational (a present zero is falsy). -/
def jsOrQ (o : Option ℚ) (d : ℚ) : ℚ :=
  match o with
  | some v => if v = 0 then d else v
  | none => d

/-- JS `o || d` on an optional string (a present empty string is falsy). -/
def jsOrStr (o : Option String) (d : String) : String :=
  match o with
  | some s => if s = "" then d else s
  | none => d

/-- The three pricing constants of `buildUnifiedProduct` (lines 112-115):
gross defaults to 99.99, the VAT rate to 23, and net to the value
computed from gross — all through falsy-defaulting `||`. -/
def buildPricing (rawData : RawData) : PricingDraft :=
  let priceGross := jsOrQ rawData.priceGross (9999/100)
  let vatRate := jsOrQ rawData.vatRate 23
  { gross := priceGross
    net := jsOrQ rawData.priceNet (calculateNetPrice priceGross vatRate)
    currency := jsOrStr rawData.currency "PLN"
    vatRate := vatRate }

/-- `content.imageAlts[index] || 'Product image N'`. -/
def imageAltAt (alts : List Json) (index : Nat) : Json :=
  jsOr (alts.getD index Json.undefined)
    (Json.str ("Product image " ++ toString (index + 1)))

/-- `buildUnifiedProduct` from the validation stage; the four `truncate`
calls run in source order and any `TypeError` they raise propagates. -/
def buildUnifiedProduct (input : PipelineInput) (vision : VisionAnalysis)
    (content : ContentGeneration) (nowIso : String) :
    Except String UnifiedProductDraft := do
  let rawData := input.rawData.getD {}
  let pricing := buildPricing rawData
  let images := input.images.mapIdx (fun index img =>
    ({ url := img.url, alt := imageAltAt content.imageAlts index,
       position := index } : ProductImage))
  let brand := jsOr (optStrJson rawData.brand)
    (jsOr vision.detectedBrand
      (jsOr (content.attributes.optIdx "Marka")
        (jsOr (content.attributes.optIdx "Brand") Json.undefined)))
  let name ← truncate content.name 128
  let short ← truncate content.shortDescription 500
  let seoTitle ← truncate content.seoTitle 70
  let seoDescription ← truncate content.seoDescription 160
  pure {
    name := name
    description :=
      { short := short
        long := content.longDescription
        html := content.htmlDescription }
    seo :=
      { title := seoTitle
        description := seoDescription
        keywords := content.keywords }
    pricing := pricing
    attributes := content.attributes
    categories := vision.suggestedCategories
    images := images
    identifiers := { ean := rawData.ean, sku := rawData.sku }
    stock := { quantity := rawData.quantity.getD 1, availability := "in_stock" }
    brand := brand
    manufacturer := rawData.manufacturer
    condition := vision.condition.getD .new
    weight := rawData.weight
    tags := content.tags
    metadata := { visionConfidence := vision.confidence, generatedAt := nowIso } }

/-! The honestly typed product produced by a successful Zod parse. -/

inductive Availability where
  | in_stock | out_of_stock | preorder
deriving DecidableEq

structure ValidatedImage where
  url : String
  alt : Option String := none
  position : Nat := 0
deriving DecidableEq

structure ValidatedDescription where
  short : String
  long : String
  html : Option String := none
deriving DecidableEq

structure ValidatedSeo where
  title : String
  description : String
  keywords : List String := []
deriving DecidableEq

structure Dimensions where
  width : ℚ
  height : ℚ
  depth : ℚ
  unit : String := "cm"
deriving DecidableEq

structure ValidatedIdentifiers where
  ean : Option String := none
  sku : Option String := none
  mpn : Option String := none
  isbn : Option String := none
deriving DecidableEq

structure ValidatedStock where
  quantity : Nat := 1
  availability : Availability := .in_stock
  lowStockThreshold : Option Nat := none
deriving DecidableEq

structure UnifiedProduct where
  name : String
  description : ValidatedDescription
  seo : ValidatedSeo
  pricing : PricingDraft
  attributes : List (String × String) := []
  categories : List String := []
  images : List ValidatedImage
  identifiers : Option ValidatedIdentifiers := none
  stock : ValidatedStock
  brand : Option String := none
  manufacturer : Option String := none
  condition : Condition := .new
  weight : Option ℚ := none
  dimensions : Option Dimensions := none
  tags : List String := []
  metadata : List (String × Json) := []

structure ValidationResult where
  isValid : Bool
  errors : Option (List String) := none
  warnings : Option (List String) := none

structure ValidationStageInput where
  pipelineInput : PipelineInput
  visionAnalysis : VisionAnalysis
  contentGeneration : ContentGeneration

/-- JS `!product.brand` (absent or empty string). -/
def brandMissing : Option String → Bool
  | none => true
  | some s => s == ""

/-- `runValidationStage`: build the draft, run the schema parse, and on
success compute the non-blocking warnings; every exception (only the
`truncate` TypeErrors are possible in the model) is caught into a failed
result carrying the message, as in the stage's catch block. -/
def runValidationStage
    (zodParse : UnifiedProductDraft → Except (List String) UnifiedProduct)
    (nowIso : String) (input : ValidationStageInput) :
    StageResult ValidationResult × Option UnifiedProduct :=
  match buildUnifiedProduct input.pipelineInput input.visionAnalysis
      input.contentGeneration nowIso with
  | .error msg =>
    ({ status := .failed
       error := some ("Validation failed: " ++ msg)
       data := some { isValid := false, errors := some [msg] } }, none)
  | .ok rawProduct =>
    match zodParse rawProduct with
    | .error errors =>
      ({ status := .failed
         data := some { isValid := false, errors := some errors }
         error := some ("Validation failed: " ++ String.intercalate "; " errors) },
       none)
    | .ok product =>
      let warnings :=
        (if product.description.short.length < 50 then
          ["Short description might be too short for good SEO"] else []) ++
        (if product.seo.keywords.length < 3 then
          ["Consider adding more SEO keywords"] else []) ++
        (if product.images.length < 2 then
          ["Products with multiple images typically perform better"] else []) ++
        (if brandMissing product.brand then
          ["Brand is not specified - this may affect searchability"] else [])
      ({ status := .completed
         data := some
           { isValid := true
             warnings := if warnings.isEmpty then none else some warnings } },
       some product)

/-! §T4  Claim theorems for pricing and bounded fields (C4, C5). -/

theorem except_bind_ok {α β : Type} {x : Except String α} {f : α → Except String β}
    {b : β} (h : (x >>= f) = .ok b) : ∃ a, x = .ok a ∧ f a = .ok b := by
  cases x with
  | error e => exact Except.noConfusion h
  | ok a => exact ⟨a, rfl, h⟩

theorem buildUnifiedProduct_ok (input : PipelineInput) (vision : VisionAnalysis)
    (content : ContentGeneration) (nowIso : String) (p : UnifiedProductDraft)
    (h : buildUnifiedProduct input vision content nowIso = .ok p) :
    p.pricing = buildPricing (input.rawData.getD {}) ∧
    (∃ s1, truncate content.name 128 = .ok s1 ∧ p.name = s1) ∧
    (∃ s2, truncate content.shortDescription 500 = .ok s2 ∧ p.description.short = s2) ∧
    (∃ s3, truncate content.seoTitle 70 = .ok s3 ∧ p.seo.title = s3) ∧
    (∃ s4, truncate content.seoDescription 160 = .ok s4 ∧ p.seo.description = s4) := by
  unfold buildUnifiedProduct at h
  obtain ⟨a1, h1, h⟩ := except_bind_ok h
  obtain ⟨a2, h2, h⟩ := except_bind_ok h
  obtain ⟨a3, h3, h⟩ := except_bind_ok h
  obtain ⟨a4, h4, h⟩ := except_bind_ok h
  have hp := (Except.ok.inj h).symm
  subst hp
  exact ⟨rfl, ⟨a1, h1, rfl⟩, ⟨a2, h2, rfl⟩, ⟨a3, h3, rfl⟩, ⟨a4, h4, rfl⟩⟩

/-- C4 (amended): whenever rawData supplies a nonzero gross price and a
nonzero vatRate and no net price, the built product satisfies
net = gross / (1 + vatRate/100); a supplied nonzero net price is used
unchanged.  (The zero cases must be excluded: the code defaults them away
with `||`, see the counterexample.) -/
theorem validation_net_price (input : PipelineInput) (vision : VisionAnalysis)
    (content : ContentGeneration) (nowIso : String) (rd : RawData)
    (p : UnifiedProductDraft) (g v : ℚ)
    (hrd : input.rawData = some rd)
    (hg : rd.priceGross = some g) (hg0 : g ≠ 0)
    (hv : rd.vatRate = some v) (hv0 : v ≠ 0)
    (hp : buildUnifiedProduct input vision content nowIso = .ok p) :
    (rd.priceNet = none → p.pricing.net = g / (1 + v / 100) ∧ p.pricing.gross = g) ∧
    (∀ n, rd.priceNet = some n → n ≠ 0 → p.pricing.net = n) := by
  have hpr := (buildUnifiedProduct_ok input vision content nowIso p hp).1
  rw [hrd] at hpr
  constructor
  · intro hnone
    rw [hpr]
    simp [buildPricing, hg, hv, hnone, jsOrQ, hg0, hv0, calculateNetPrice]
  · intro n hn hn0
    rw [hpr]
    simp [buildPricing, hn, jsOrQ, hn0]

def visionOk : VisionAnalysis :=
  { productType := Json.str "Sneakers", confidence := 9/10 }

def contentOk : ContentGeneration :=
  { name := Json.str "Sneaker X"
    shortDescription := Json.str "Nice shoes"
    longDescription := Json.str "Long description"
    htmlDescription := Json.str "<p>x</p>"
    seoTitle := Json.str "Sneaker X"
    seoDescription := Json.str "Nice" }

def nowW : String := "2026-01-01T00:00:00.000Z"

/-- rawData supplying gross 123 and the schema-legal vatRate 0, no net. -/
def inputVat0 : PipelineInput :=
  { images := [{ url := "http://x/1.jpg", mimeType := "image/jpeg", filename := "1.jpg" }]
    rawData := some { priceGross := some 123, vatRate := some 0 } }

/-- C4 counterexample: with gross 123 and supplied vatRate 0 (legal per
the input schema, `min(0)`) and no net, the claim demands
net = 123 / (1 + 0/100) = 123, but `rawData.vatRate || 23` replaces the
falsy 0 by 23 and the built product has net = 100. -/
theorem validation_net_price_counterexample :
    (buildUnifiedProduct inputVat0 visionOk contentOk nowW).map
      (fun p => p.pricing.net) =
      .ok (buildPricing { priceGross := some 123, vatRate := some 0 }).net ∧
    (buildPricing { priceGross := some 123, vatRate := some 0 }).net = 100 ∧
    (100 : ℚ) ≠ 123 / (1 + (0 : ℚ) / 100) := by
  refine ⟨rfl, ?_, ?_⟩
  · norm_num [buildPricing, jsOrQ, calculateNetPrice]
  · norm_num

def inputVat23 : PipelineInput :=
  { images := [{ url := "http://x/1.jpg", mimeType := "image/jpeg", filename := "1.jpg" }]
    rawData := some { priceGross := some 123, vatRate := some 23 } }

theorem validation_net_price_witness :
    (inputVat23.rawData = some { priceGross := some 123, vatRate := some 23 } ∧
      buildUnifiedProduct inputVat23 visionOk contentOk nowW =
        .ok { name := Json.str "Sneaker X"
              description :=
                { short := Json.str "Nice shoes"
                  long := contentOk.longDescription
                  html := contentOk.htmlDescription }
              seo :=
                { title := Json.str "Sneaker X"
                  description := Json.str "Nice"
                  keywords := [] }
              pricing := buildPricing { priceGross := some 123, vatRate := some 23 }
              attributes := Json.obj []
              categories := []
              images := [{ url := "http://x/1.jpg", alt := Json.str "Product image 1", position := 0 }]
              identifiers := { ean := none, sku := none }
              stock := { quantity := 1, availability := "in_stock" }
              brand := Json.undefined
              manufacturer := none
              condition := .new
              weight := none
              tags := []
              metadata := { visionConfidence := 9/10, generatedAt := nowW } }) ∧
    ((RawData.priceNet { priceGross := some 123, vatRate := some 23 } = none →
        (buildPricing { priceGross := some 123, vatRate := some 23 }).net =
          123 / (1 + (23 : ℚ) / 100) ∧
        (buildPricing { priceGross := some 123, vatRate := some 23 }).gross = 123) ∧
      (∀ n, RawData.priceNet { priceGross := some 123, vatRate := some 23 } = some n →
        n ≠ 0 →
        (buildPricing { priceGross := some 123, vatRate := some 23 }).net = n)) :=
  ⟨⟨rfl, rfl⟩,
    validation_net_price inputVat23 visionOk contentOk nowW _ _ 123 23 rfl rfl
      (by norm_num) rfl (by norm_num) rfl⟩

/-- A value the bounded-field claims range over: a string or a falsy
value (which `truncate` turns into the empty string). -/
def strOrFalsy (j : Json) : Prop := (∃ s, j = Json.str s) ∨ j.truthy = false

theorem truncate_str_ok (j : Json) (n : Nat) (hn : 3 ≤ n) (h : strOrFalsy j) :
    ∃ s, truncate j n = .ok (Json.str s) ∧ s.length ≤ n := by
  rcases h with ⟨s, rfl⟩ | hf
  · by_cases he : s = ""
    · subst he
      exact ⟨"", rfl, by simp⟩
    · have ht : (Json.str s).truthy = true := by
        simp [Json.truthy]
        intro hcon
        exact he hcon
      by_cases hlen : s.length ≤ n
      · exact ⟨s, by simp [truncate, ht, hlen], hlen⟩
      · refine ⟨String.mk (s.data.take (n - 3)) ++ "...", by simp [truncate, ht, hlen], ?_⟩
        have hlen3 : ("..." : String).length = 3 := rfl
        have htake : (String.mk (s.data.take (n - 3))).length ≤ n - 3 := by
          show (s.data.take (n - 3)).length ≤ n - 3
          simp

        calc (String.mk (s.data.take (n - 3)) ++ "...").length
            = (String.mk (s.data.take (n - 3))).length + 3 := by
              rw [String.length_append, hlen3]
          _ ≤ (n - 3) + 3 := by omega
          _ = n := Nat.sub_add_cancel hn
  · refine ⟨"", ?_, by simp⟩
    unfold truncate
    rw [hf]
    rfl

/-- C5 (amended): the bounded fields are truncated not by the content
stage but by `buildUnifiedProduct` in the validation stage: whenever the
content record's name, short description, SEO title and SEO description
are strings (or falsy), the build succeeds and the corresponding product
fields are strings within 128, 500, 70 and 160 characters respectively —
never rejected.  The content stage itself returns the model text
unchanged (see the counterexample). -/
theorem content_bounded_fields_truncated (input : PipelineInput)
    (vision : VisionAnalysis) (content : ContentGeneration) (nowIso : String)
    (h1 : strOrFalsy content.name) (h2 : strOrFalsy content.shortDescription)
    (h3 : strOrFalsy content.seoTitle) (h4 : strOrFalsy content.seoDescription) :
    ∃ p, buildUnifiedProduct input vision content nowIso = .ok p ∧
      (∃ s, p.name = Json.str s ∧ s.length ≤ 128) ∧
      (∃ s, p.description.short = Json.str s ∧ s.length ≤ 500) ∧
      (∃ s, p.seo.title = Json.str s ∧ s.length ≤ 70) ∧
      (∃ s, p.seo.description = Json.str s ∧ s.length ≤ 160) := by
  obtain ⟨s1, ht1, hl1⟩ := truncate_str_ok _ 128 (by norm_num) h1
  obtain ⟨s2, ht2, hl2⟩ := truncate_str_ok _ 500 (by norm_num) h2
  obtain ⟨s3, ht3, hl3⟩ := truncate_str_ok _ 70 (by norm_num) h3
  obtain ⟨s4, ht4, hl4⟩ := truncate_str_ok _ 160 (by norm_num) h4
  unfold buildUnifiedProduct
  rw [ht1, ht2, ht3, ht4]
  exact ⟨_, rfl, ⟨s1, rfl, hl1⟩, ⟨s2, rfl, hl2⟩, ⟨s3, rfl, hl3⟩, ⟨s4, rfl, hl4⟩⟩

/-- A 501-character string returned by the model as short description. -/
def longShortDesc : String := String.mk (List.replicate 501 'a')

def respLong : AICompletionResponse :=
  { content := "\x7b\"name\":\"N\",\"shortDescription\":\"" ++ longShortDesc ++ "\"\x7d"
    model := "llama-3.3-70b-versatile" }

def behLong : ProviderType → Except String AICompletionResponse :=
  fun _ => .ok respLong

/-- JSON.parse on exactly the document of `respLong`. -/
def jparseLong : String → Option Json := fun s =>
  if s = respLong.content then
    some (Json.obj [("name", Json.str "N"),
      ("shortDescription", Json.str longShortDesc)])
  else none

def contentInputW : ContentStageInput :=
  { visionAnalysis := visionOk, imageCount := some 1 }

/-- C5 counterexample: the content stage completes and returns the
501-character short description unchanged — no bounded field is truncated
before the stage returns, contradicting the claim that the stage's
returned data never exceeds the documented maximums. -/
theorem content_stage_no_truncation_counterexample :
    (runContentStage cfgW behLong jparseLong contentInputW).status = .completed ∧
    ((runContentStage cfgW behLong jparseLong contentInputW).data.map
      (fun d => d.shortDescription)) = some (Json.str longShortDesc) ∧
    longShortDesc.length = 501 := by
  refine ⟨rfl, rfl, rfl⟩

def contentLong : ContentGeneration :=
  { name := Json.str "Sneaker X"
    shortDescription := Json.str longShortDesc
    longDescription := Json.str "Long description"
    htmlDescription := Json.str "<p>x</p>"
    seoTitle := Json.str "Sneaker X"
    seoDescription := Json.str "Nice" }

theorem content_bounded_fields_truncated_witness :
    (strOrFalsy contentLong.name ∧ strOrFalsy contentLong.shortDescription ∧
      strOrFalsy contentLong.seoTitle ∧ strOrFalsy contentLong.seoDescription) ∧
    (∃ p, buildUnifiedProduct inputVat23 visionOk contentLong nowW = .ok p ∧
      (∃ s, p.name = Json.str s ∧ s.length ≤ 128) ∧
      (∃ s, p.description.short = Json.str s ∧ s.length ≤ 500) ∧
      (∃ s, p.seo.title = Json.str s ∧ s.length ≤ 70) ∧
      (∃ s, p.seo.description = Json.str s ∧ s.length ≤ 160)) :=
  ⟨⟨Or.inl ⟨_, rfl⟩, Or.inl ⟨_, rfl⟩, Or.inl ⟨_, rfl⟩, Or.inl ⟨_, rfl⟩⟩,
    content_bounded_fields_truncated inputVat23 visionOk contentLong nowW
      (Or.inl ⟨_, rfl⟩) (Or.inl ⟨_, rfl⟩) (Or.inl ⟨_, rfl⟩) (Or.inl ⟨_, rfl⟩)⟩

/-! §8  ViaMall content stage (`viamall-content-stage.ts`) and the
`slugify` of `adapters/prestashop/viamall-xml-builder.ts`. -/

/-- The German/Polish character substitution table of `slugify`.  JS
lowercases first with full Unicode folding; `Char.toLower` only folds
ASCII, so the uppercase special characters are kept in the table (the
source also lists them) and map to the same lowercase replacements. -/
def slugChar (c : Char) : String :=
  if c = 'ä' ∨ c = 'Ä' then "ae"
  else if c = 'ö' ∨ c = 'Ö' then "oe"
  else if c = 'ü' ∨ c = 'Ü' then "ue"
  else if c = 'ß' then "ss"
  else if c = 'ą' ∨ c = 'Ą' then "a"
  else if c = 'ć' ∨ c = 'Ć' then "c"
  else if c = 'ę' ∨ c = 'Ę' then "e"
  else if c = 'ł' ∨ c = 'Ł' then "l"
  else if c = 'ń' ∨ c = 'Ń' then "n"
  else if c = 'ó' ∨ c = 'Ó' then "o"
  else if c = 'ś' ∨ c = 'Ś' then "s"
  else if c = 'ź' ∨ c = 'Ź' then "z"
  else if c = 'ż' ∨ c = 'Ż' then "z"
  else String.mk [c]

def isSlugAlnum (c : Char) : Bool :=
  ('a' ≤ c ∧ c ≤ 'z') ∨ ('0' ≤ c ∧ c ≤ '9')

/-- The `[^a-z0-9]+ → '-'` replacement: every maximal run of non-slug
characters becomes a single dash. -/
def dashifyCollapse : List Char → List Char
  | [] => []
  | [c] => if isSlugAlnum c then [c] else ['-']
  | c :: d :: rest =>
    if isSlugAlnum c then c :: dashifyCollapse (d :: rest)
    else if isSlugAlnum d then '-' :: dashifyCollapse (d :: rest)
    else dashifyCollapse (d :: rest)

/-- `slugify` from the ViaMall XML builder: lowercase, substitute the
German/Polish characters, replace non-alphanumeric runs by dashes, strip
edge dashes, cut at 128.  (The NFD diacritics strip for characters not in
the table is elided — no claim touches it.) -/
def slugify (text : String) : String :=
  let lowered := text.data.map Char.toLower
  let mapped := (String.join (lowered.map slugChar)).data
  let dashed := dashifyCollapse mapped
  let trimmed := ((dashed.dropWhile (· = '-')).reverse.dropWhile (· = '-')).reverse
  String.mk (trimmed.take 128)

/-- JS `x.toString()`: works on every value except `null`/`undefined`. -/
def jsToStringMethod : Json → Except String String
  | .null => .error "TypeError: Cannot read properties of null"
  | .undefined => .error "TypeError: Cannot read properties of undefined"
  | j => .ok j.toJsString

structure ViaMallPromptData where
  productType : Json
  brand : Json
  colors : List Json
  materials : List Json
  style : Json
  features : List Json
  language : Lang

/-- `buildFallbackName`: `[Brand] [Name] [Color] | [Benefit]` with JS
`Array.join(' ')` semantics on the collected parts. -/
def buildFallbackName (data : ViaMallPromptData) : String :=
  let parts : List Json :=
    (if data.brand.truthy then [data.brand] else []) ++
    [data.productType] ++
    (if data.colors.length > 0 then [data.colors.headD Json.undefined] else [])
  let benefit := if data.language = .de then "Hochwertige Qualitat" else "Wysoka jakosc"
  joinJsList " " parts ++ " | " ++ benefit

/-- `buildFallbackShortDescription`: intro paragraph plus emoji bullets. -/
def buildFallbackShortDescription (data : ViaMallPromptData) : String :=
  let isGerman := data.language = .de
  let intro :=
    if isGerman then
      "<p><strong>" ++ data.productType.toJsString ++
        " in erstklassiger Qualitat.</strong></p>"
    else
      "<p><strong>" ++ data.productType.toJsString ++
        " najwyzszej jakosci.</strong></p>"
  let bullets : List String :=
    (if data.materials.length > 0 then
      ["<p>✅ <strong>Material:</strong> " ++ joinJsList ", " data.materials ++ "</p>"]
    else []) ++
    (if data.colors.length > 0 then
      ["<p>✅ <strong>" ++ (if isGerman then "Farbe" else "Kolor") ++ ":</strong> " ++
        joinJsList ", " data.colors ++ "</p>"]
    else []) ++
    (if data.features.length > 0 then
      ["<p>✅ <strong>" ++ (data.features.headD Json.undefined).toJsString ++ "</strong></p>"]
    else []) ++
    ["<p>✅ <strong>" ++ (if isGerman then "Qualitat" else "Jakosc") ++ ":</strong> " ++
      (if isGerman then "Hochwertige Verarbeitung" else "Wysoka jakosc wykonania") ++ "</p>"]
  intro ++ String.join bullets

/-- `buildFallbackLongDescription`: title, intro, features list and
specification table. -/
def buildFallbackLongDescription (data : ViaMallPromptData) : String :=
  let isGerman := data.language = .de
  let title := "<h2>" ++
    (if data.brand.truthy then data.brand.toJsString ++ " " else "") ++
    data.productType.toJsString ++ "</h2>"
  let introText :=
    if isGerman then
      "<p>Entdecken Sie dieses hochwertige " ++ data.productType.toJsString ++
        ". Perfekt fur den taglichen Gebrauch.</p>"
    else
      "<p>Odkryj ten wysokiej jakosci " ++ data.productType.toJsString ++
        ". Idealny do codziennego uzytku.</p>"
  let featuresHeader := if isGerman then "<h3>Eigenschaften</h3>" else "<h3>Cechy produktu</h3>"
  let featuresList :=
    if data.features.length > 0 then
      "<ul>" ++ String.join (data.features.map
        (fun f => "<li><strong>" ++ f.toJsString ++ "</strong></li>")) ++ "</ul>"
    else ""
  let specsHeader := if isGerman then "<h3>Technische Daten</h3>" else "<h3>Dane techniczne</h3>"
  let specsRows : List String :=
    (if data.materials.length > 0 then
      ["<tr><td>Material:</td><td>" ++ joinJsList ", " data.materials ++ "</td></tr>"]
    else []) ++
    (if data.colors.length > 0 then
      ["<tr><td>" ++ (if isGerman then "Farbe" else "Kolor") ++ ":</td><td>" ++
        joinJsList ", " data.colors ++ "</td></tr>"]
    else []) ++
    (if data.style.truthy then
      ["<tr><td>" ++ (if isGerman then "Stil" else "Styl") ++ ":</td><td>" ++
        data.style.toJsString ++ "</td></tr>"]
    else [])
  let specsTable :=
    if specsRows.length > 0 then "<table>" ++ String.join specsRows ++ "</table>" else ""
  title ++ introText ++ featuresHeader ++ featuresList ++ specsHeader ++ specsTable

structure ViaMallContentGeneration where
  name : Json
  shortDescription : Json
  longDescription : Json
  slug : Json
  rawResponse : String := ""

structure ViaMallContentStageInput where
  visionAnalysis : VisionAnalysis
  userHint : Option String := none
  rawData : Option RawData := none
  language : Lang
  imageCount : Option Nat := none

/-- The ViaMall normalisation (stage lines 68-81) including the final
re-slugification of the slug field. -/
def viamallNormalize (promptData : ViaMallPromptData) (parsed : Json)
    (rawContent : String) : Except String ViaMallContentGeneration := do
  let fallbackName := buildFallbackName promptData
  let pn ← parsed.getProp "name"
  let psd ← parsed.getProp "shortDescription"
  let pld ← parsed.getProp "longDescription"
  let pslug ← parsed.getProp "slug"
  let slug0 ←
    if pslug.truthy then pure pslug
    else do
      let s ← jsToStringMethod (jsOr pn (Json.str fallbackName))
      pure (Json.str (slugify s))
  let s2 ← jsToStringMethod slug0
  pure {
    name := jsOr pn (Json.str fallbackName)
    shortDescription := jsOr psd (Json.str (buildFallbackShortDescription promptData))
    longDescription := jsOr pld (Json.str (buildFallbackLongDescription promptData))
    slug := Json.str (slugify s2)
    rawResponse := rawContent }

/-- `runViaMallContentStage`. -/
def runViaMallContentStage (cfg : ProviderType → Bool)
    (behavior : ProviderType → Except String AICompletionResponse)
    (jparse : String → Option Json)
    (input : ViaMallContentStageInput) : StageResult ViaMallContentGeneration :=
  let promptData : ViaMallPromptData :=
    { productType := input.visionAnalysis.productType
      brand := jsOr input.visionAnalysis.detectedBrand
        (optStrJson (input.rawData.bind RawData.brand))
      colors := input.visionAnalysis.colors
      materials := input.visionAnalysis.materials
      style := input.visionAnalysis.style
      features := input.visionAnalysis.features
      language := input.language }
  match (generateContentWithFallback cfg behavior).2 with
  | .error e =>
    { status := .failed, error := some ("ViaMall content generation failed: " ++ e) }
  | .ok response =>
    let jsonStr := extractJsonFromMarkdown response.content
    let parsed := safeJsonParse jparse jsonStr (Json.obj [])
    match viamallNormalize promptData parsed response.content with
    | .ok contentGeneration =>
      { status := .completed, data := some contentGeneration }
    | .error e =>
      { status := .failed, error := some ("ViaMall content generation failed: " ++ e) }

/-! §10  Pipeline orchestrator (`runPipeline`, second part of
`content-stage.ts`).

The oracle fields of `PipelineEnv` are the external effects awaited by
`runPipeline` and its stages: the provider behaviours, `JSON.parse`, the
image fetch of `urlsToBase64`, the Zod engine, and the clock.  The
caller-supplied progress observer may itself throw, which `Except`
models; `runPipeline` returning `.error` models the promise rejecting. -/

/-- The global replace `/<[^>]*>/g → ''` used on the ViaMall short
description.  Fueled by the list length (every step consumes at least one
character, so the fuel never runs out). -/
def stripTagsGo : Nat → List Char → List Char
  | _, [] => []
  | 0, l => l
  | fuel + 1, c :: rest =>
    if c = '<' ∧ rest.contains '>' then
      stripTagsGo fuel ((rest.dropWhile (fun x => !(x == '>'))).drop 1)
    else c :: stripTagsGo fuel rest

def stripTags (s : String) : String :=
  String.mk (stripTagsGo s.data.length s.data)

/-- JS `x.slice(0, n)`: defined on strings and arrays, a TypeError
otherwise. -/
def jsSliceStr (j : Json) (n : Nat) : Except String Json :=
  match j with
  | .str s => .ok (.str (String.mk (s.data.take n)))
  | .arr l => .ok (.arr (l.take n))
  | _ => .error "TypeError: slice is not a function"

/-- JS `x.replace(/<[^>]*>/g, '')`: defined on strings only. -/
def jsReplaceTags : Json → Except String Json
  | .str s => .ok (.str (stripTags s))
  | _ => .error "TypeError: replace is not a function"

/-- Overall pipeline status; `partly` renders the source literal
`'partial'` (a reserved word in Lean). -/
inductive OverallStatus where
  | completed | partly | failed
deriving DecidableEq

structure ProgressEvent where
  stage : String
  status : StageStatus
  message : Option String := none
  progress : Option Nat := none

structure PipelineOptions where
  skipVision : Bool := false
  skipContent : Bool := false
  language : Option Lang := none
  useViaMallFormat : Bool := false
  onProgress : Option (ProgressEvent → Except String Unit) := none

structure PipelineOutput where
  visionAnalysis : StageResult VisionAnalysis
  contentGeneration : StageResult ContentGeneration
  validation : StageResult ValidationResult
  product : Option UnifiedProduct := none
  status : OverallStatus
  totalDurationMs : Nat := 0
  errors : Option (List String) := none

structure PipelineEnv where
  cfg : ProviderType → Bool
  visionBehavior : ProviderType → Except String AICompletionResponse
  textBehavior : ProviderType → Except String AICompletionResponse
  jparse : String → Option Json
  urlsResult : Except String (List ImagePayload)
  zodParse : UnifiedProductDraft → Except (List String) UnifiedProduct
  nowIso : String

/-- `onProgress?.(event)`. -/
def callProgress (onP : Option (ProgressEvent → Except String Unit))
    (e : ProgressEvent) : Except String Unit :=
  match onP with
  | none => .ok ()
  | some f => f e

/-- Stage 1 of `runPipeline` (lines 231-279): the try block catches a
rejection of `urlsToBase64`; a failed stage result pushes its message;
the two progress notifications are unguarded. -/
def visionPhase (env : PipelineEnv) (input : PipelineInput)
    (options : PipelineOptions) :
    Except String (StageResult VisionAnalysis × List String) :=
  if options.skipVision then
    .ok ({ status := .skipped, durationMs := 0 }, [])
  else do
    callProgress options.onProgress
      { stage := "vision", status := .running
        message := some "Analyzing images...", progress := some 10 }
    let pair :=
      match env.urlsResult with
      | .ok imagesBase64 =>
        let r := runVisionStage env.cfg env.visionBehavior env.jparse
          { images := imagesBase64, userHint := input.userHint
            language := some (options.language.getD .pl) }
        (r, if r.status = .failed then [r.error.getD "Vision analysis failed"] else [])
      | .error msg =>
        (({ status := .failed, error := some msg, durationMs := 0 } :
            StageResult VisionAnalysis),
         ["Vision stage error: " ++ msg])
    callProgress options.onProgress
      { stage := "vision", status := pair.1.status
        message := if pair.1.status = .completed then some "Image analysis complete"
          else pair.1.error
        progress := some 33 }
    pure pair

/-- The ViaMall-to-standard conversion of `runPipeline` (lines 304-323);
the `slice`/`replace` calls throw on non-string data. -/
def viamallConvert (d : ViaMallContentGeneration) (durationMs : Nat) :
    Except String (StageResult ContentGeneration) := do
  let seoTitle ← jsSliceStr d.name 70
  let stripped ← jsReplaceTags d.shortDescription
  let seoDescription ← jsSliceStr stripped 160
  pure { status := .completed
         data := some {
           name := d.name
           shortDescription := d.shortDescription
           longDescription := d.longDescription
           htmlDescription := d.longDescription
           seoTitle := seoTitle
           seoDescription := seoDescription
           keywords := []
           attributes := Json.obj []
           tags := []
           imageAlts := []
           rawResponse := d.rawResponse
           viamallSlug := d.slug }
         durationMs := durationMs }

/-- The `else if (!options.skipContent)` tail of stage 2: skipped when
content was not explicitly skipped, otherwise the untouched `pending`
initialisation. -/
def contentGateElse (options : PipelineOptions) :
    StageResult ContentGeneration × List String :=
  if options.skipContent = false then ({ status := .skipped, durationMs := 0 }, [])
  else ({ status := .pending, durationMs := 0 }, [])

/-- Stage 2 of `runPipeline` (lines 281-370): gated on a completed vision
stage with data and `skipContent` unset; the ViaMall branch converts the
ViaMall record (its conversion may throw, caught into a failed result
with a `Content stage error:` entry); a failed result from the stage
itself pushes its own message; the progress notifications are
unguarded. -/
def contentPhase (env : PipelineEnv) (input : PipelineInput)
    (options : PipelineOptions) (visionResult : StageResult VisionAnalysis) :
    Except String (StageResult ContentGeneration × List String) :=
  match visionResult.data with
  | none => .ok (contentGateElse options)
  | some vd =>
    if visionResult.status = .completed ∧ options.skipContent = false then do
      let language := options.language.getD .pl
      callProgress options.onProgress
        { stage := "content", status := .running
          message := some (if options.useViaMallFormat then "Generating ViaMall content..."
            else "Generating product content...")
          progress := some 40 }
      let pair :=
        if options.useViaMallFormat ∧ (language = .de ∨ language = .pl) then
          let viamallResult := runViaMallContentStage env.cfg env.textBehavior env.jparse
            { visionAnalysis := vd, userHint := input.userHint, rawData := input.rawData
              language := language, imageCount := some input.images.length }
          match viamallResult.status, viamallResult.data with
          | .completed, some d =>
            match viamallConvert d viamallResult.durationMs with
            | .ok cr =>
              (cr, if cr.status = .failed then
                [cr.error.getD "Content generation failed"] else [])
            | .error msg =>
              (({ status := .failed, error := some msg, durationMs := 0 } :
                  StageResult ContentGeneration),
               ["Content stage error: " ++ msg])
          | st, _ =>
            let cr : StageResult ContentGeneration :=
              { status := st, error := viamallResult.error
                durationMs := viamallResult.durationMs }
            (cr, if cr.status = .failed then
              [cr.error.getD "Content generation failed"] else [])
        else
          let cr := runContentStage env.cfg env.textBehavior env.jparse
            { visionAnalysis := vd, userHint := input.userHint, rawData := input.rawData
              language := some language, imageCount := some input.images.length }
          (cr, if cr.status = .failed then
            [cr.error.getD "Content generation failed"] else [])
      callProgress options.onProgress
        { stage := "content", status := pair.1.status
          message := if pair.1.status = .completed then some "Content generation complete"
            else pair.1.error
          progress := some 66 }
      pure pair
    else .ok (contentGateElse options)

/-- Stage 3 of `runPipeline` (lines 372-424): runs only when both prior
stages completed with data; `runValidationStage` itself never rejects in
the model (its own catch handles the build), so the stage's catch is
unreachable; the progress notifications are unguarded. -/
def validationPhase (env : PipelineEnv) (input : PipelineInput)
    (options : PipelineOptions) (visionResult : StageResult VisionAnalysis)
    (contentResult : StageResult ContentGeneration) :
    Except String (StageResult ValidationResult × Option UnifiedProduct × List String) :=
  match visionResult.data, contentResult.data with
  | some vd, some cd =>
    if visionResult.status = .completed ∧ contentResult.status = .completed then do
      callProgress options.onProgress
        { stage := "validation", status := .running
          message := some "Validating product data...", progress := some 80 }
      let pair := runValidationStage env.zodParse env.nowIso
        { pipelineInput := input, visionAnalysis := vd, contentGeneration := cd }
      let errs := if pair.1.status = .failed then
          [pair.1.error.getD "Validation failed"] else []
      callProgress options.onProgress
        { stage := "validation", status := pair.1.status
          message := if pair.1.status = .completed then some "Validation complete"
            else pair.1.error
          progress := some 100 }
      pure (pair.1, pair.2, errs)
    else .ok ({ status := .pending, durationMs := 0 }, none, [])
  | _, _ => .ok ({ status := .pending, durationMs := 0 }, none, [])

/-- The tail of `runPipeline` (lines 426-449): overall status decision
and result assembly. -/
def assembleOutput (visionResult : StageResult VisionAnalysis)
    (contentResult : StageResult ContentGeneration)
    (validationResult : StageResult ValidationResult)
    (finalProduct : Option UnifiedProduct) (errors : List String)
    (totalDurationMs : Nat) : PipelineOutput :=
  let status : OverallStatus :=
    if finalProduct.isSome ∧ validationResult.status = .completed then .completed
    else if visionResult.status = .completed ∨ contentResult.status = .completed then
      .partly
    else .failed
  { visionAnalysis := visionResult
    contentGeneration := contentResult
    validation := validationResult
    product := finalProduct
    status := status
    totalDurationMs := totalDurationMs
    errors := if errors.isEmpty then none else some errors }

/-- `runPipeline`: the three phases in sequence, then assembly.  The
result is `.error` exactly when an unguarded `onProgress` call throws. -/
def runPipeline (env : PipelineEnv) (input : PipelineInput)
    (options : PipelineOptions) : Except String PipelineOutput := do
  let (visionResult, errs1) ← visionPhase env input options
  let (contentResult, errs2) ← contentPhase env input options visionResult
  let (validationResult, finalProduct, errs3) ←
    validationPhase env input options visionResult contentResult
  pure (assembleOutput visionResult contentResult validationResult finalProduct
    (errs1 ++ errs2 ++ errs3) 0)

/-! §T5  Claim theorems for the pipeline orchestrator (C2, C9, C10). -/

theorem runPipeline_ok_shape (env : PipelineEnv) (input : PipelineInput)
    (options : PipelineOptions) (out : PipelineOutput)
    (h : runPipeline env input options = .ok out) :
    ∃ v c vl p e, out = assembleOutput v c vl p e 0 := by
  unfold runPipeline at h
  obtain ⟨⟨v, e1⟩, h1, h⟩ := except_bind_ok h
  obtain ⟨⟨c, e2⟩, h2, h⟩ := except_bind_ok h
  obtain ⟨⟨vl, p, e3⟩, h3, h⟩ := except_bind_ok h
  exact ⟨v, c, vl, p, e1 ++ e2 ++ e3, (Except.ok.inj h).symm⟩

theorem assembleOutput_status (v : StageResult VisionAnalysis)
    (c : StageResult ContentGeneration) (vl : StageResult ValidationResult)
    (p : Option UnifiedProduct) (e : List String) (t : Nat) :
    ((assembleOutput v c vl p e t).status = .completed ↔
      p.isSome = true ∧ vl.status = .completed) ∧
    ((assembleOutput v c vl p e t).status = .partly ↔
      ¬(p.isSome = true ∧ vl.status = .completed) ∧
      (v.status = .completed ∨ c.status = .completed)) ∧
    ((assembleOutput v c vl p e t).status = .failed ↔
      ¬(p.isSome = true ∧ vl.status = .completed) ∧
      ¬(v.status = .completed ∨ c.status = .completed)) := by
  by_cases h1 : p.isSome = true ∧ vl.status = .completed
  · simp [assembleOutput, h1]
  · by_cases h2 : v.status = .completed ∨ c.status = .completed
    · simp [assembleOutput, h1, h2]
    · simp [assembleOutput, h1, h2]

/-- C2: in every returned pipeline output, the overall status is
`completed` iff a final product exists and the validation stage result is
`completed`; `partial` iff the run is not completed and the vision or the
content stage result is `completed`; and `failed` in every other case. -/
theorem pipeline_overall_status (env : PipelineEnv) (input : PipelineInput)
    (options : PipelineOptions) (out : PipelineOutput)
    (h : runPipeline env input options = .ok out) :
    (out.status = .completed ↔
      out.product.isSome = true ∧ out.validation.status = .completed) ∧
    (out.status = .partly ↔
      ¬(out.product.isSome = true ∧ out.validation.status = .completed) ∧
      (out.visionAnalysis.status = .completed ∨
        out.contentGeneration.status = .completed)) ∧
    (out.status = .failed ↔
      ¬(out.product.isSome = true ∧ out.validation.status = .completed) ∧
      ¬(out.visionAnalysis.status = .completed ∨
        out.contentGeneration.status = .completed)) := by
  obtain ⟨v, c, vl, p, e, rfl⟩ := runPipeline_ok_shape env input options out h
  exact assembleOutput_status v c vl p e 0

def inputW : PipelineInput :=
  { images := [{ url := "http://x/1.jpg", mimeType := "image/jpeg", filename := "1.jpg" }] }

def envFailW : PipelineEnv :=
  { cfg := cfgW
    visionBehavior := behFailW
    textBehavior := behFailW
    jparse := fun _ => none
    urlsResult := .ok [{ base64 := "aW1n", mimeType := "image/jpeg" }]
    zodParse := fun _ => .error ["images: Required"]
    nowIso := nowW }

def visionErrW : String :=
  "Vision analysis failed: All vision providers failed:\ngoogle: insufficient_quota"

def outFailW : PipelineOutput :=
  assembleOutput
    { status := .failed, error := some visionErrW, durationMs := 0 }
    { status := .skipped, durationMs := 0 }
    { status := .pending, durationMs := 0 }
    none [visionErrW] 0

theorem pipeline_overall_status_witness :
    runPipeline envFailW inputW {} = .ok outFailW ∧
    ((outFailW.status = .completed ↔
      outFailW.product.isSome = true ∧ outFailW.validation.status = .completed) ∧
    (outFailW.status = .partly ↔
      ¬(outFailW.product.isSome = true ∧ outFailW.validation.status = .completed) ∧
      (outFailW.visionAnalysis.status = .completed ∨
        outFailW.contentGeneration.status = .completed)) ∧
    (outFailW.status = .failed ↔
      ¬(outFailW.product.isSome = true ∧ outFailW.validation.status = .completed) ∧
      ¬(outFailW.visionAnalysis.status = .completed ∨
        outFailW.contentGeneration.status = .completed))) :=
  ⟨rfl, pipeline_overall_status envFailW inputW {} outFailW rfl⟩

def throwingObserver : ProgressEvent → Except String Unit :=
  fun _ => .error "observer exploded"

/-- C9 counterexample: with a caller-supplied observer that throws, the
very first unguarded `onProgress?.()` call makes `runPipeline` itself
reject instead of returning a PipelineOutput — so the claim's guarantee
does not extend to throwing observers. -/
theorem pipeline_observer_throw_counterexample :
    runPipeline envFailW inputW { onProgress := some throwingObserver } =
      .error "observer exploded" := rfl

theorem visionPhase_ok (env : PipelineEnv) (input : PipelineInput)
    (options : PipelineOptions)
    (hobs : ∀ e, callProgress options.onProgress e = .ok ()) :
    ∃ r, visionPhase env input options = .ok r := by
  unfold visionPhase
  by_cases hs : options.skipVision = true
  · simp only [hs, if_true]
    exact ⟨_, rfl⟩
  · simp only [hs, if_false, Bool.false_eq_true]
    simp only [hobs]
    exact ⟨_, rfl⟩

theorem contentPhase_ok (env : PipelineEnv) (input : PipelineInput)
    (options : PipelineOptions) (v : StageResult VisionAnalysis)
    (hobs : ∀ e, callProgress options.onProgress e = .ok ()) :
    ∃ r, contentPhase env input options v = .ok r := by
  unfold contentPhase
  cases hv : v.data with
  | none => exact ⟨_, rfl⟩
  | some vd =>
    by_cases hg : v.status = .completed ∧ options.skipContent = false
    · simp only [hobs, hg, and_self, if_true]
      exact ⟨_, rfl⟩
    · simp only [hg, if_false]
      exact ⟨_, rfl⟩

theorem validationPhase_ok (env : PipelineEnv) (input : PipelineInput)
    (options : PipelineOptions) (v : StageResult VisionAnalysis)
    (c : StageResult ContentGeneration)
    (hobs : ∀ e, callProgress options.onProgress e = .ok ()) :
    ∃ r, validationPhase env input options v c = .ok r := by
  unfold validationPhase
  cases hv : v.data with
  | none => exact ⟨_, rfl⟩
  | some vd =>
    cases hc : c.data with
    | none => exact ⟨_, rfl⟩
    | some cd =>
      by_cases hg : v.status = .completed ∧ c.status = .completed
      · simp only [hobs, hg, and_self, if_true]
        exact ⟨_, rfl⟩
      · simp only [hg, if_false]
        exact ⟨_, rfl⟩

/-- C9 (amended): whenever the caller-supplied progress observer does not
throw (in particular when none is supplied), `runPipeline` always returns
a PipelineOutput for every input, options and environment — including
environments where the image fetch rejects, every provider fails, the
response is unparsable, or the schema validation fails; the stage
failures are recorded in the stage results and the errors list rather
than raised.  (A throwing observer does escape: see the counterexample.) -/
theorem pipeline_total_when_observer_total (env : PipelineEnv)
    (input : PipelineInput) (options : PipelineOptions)
    (hobs : ∀ e, callProgress options.onProgress e = .ok ()) :
    ∃ out, runPipeline env input options = .ok out := by
  obtain ⟨⟨v, e1⟩, h1⟩ := visionPhase_ok env input options hobs
  obtain ⟨⟨c, e2⟩, h2⟩ := contentPhase_ok env input options v hobs
  obtain ⟨⟨vl, p, e3⟩, h3⟩ := validationPhase_ok env input options v c hobs
  refine ⟨assembleOutput v c vl p (e1 ++ e2 ++ e3) 0, ?_⟩
  simp only [runPipeline, bind, Except.bind, h1, h2, h3, pure]
  rfl

theorem pipeline_total_when_observer_total_witness :
    (∀ e, callProgress (none : Option (ProgressEvent → Except String Unit)) e = .ok ()) ∧
    (∃ out, runPipeline envFailW inputW {} = .ok out) :=
  ⟨fun _ => rfl,
    pipeline_total_when_observer_total envFailW inputW {} (fun _ => rfl)⟩

theorem visionPhase_skip (env : PipelineEnv) (input : PipelineInput)
    (options : PipelineOptions) (h : options.skipVision = true) :
    visionPhase env input options = .ok ({ status := .skipped, durationMs := 0 }, []) := by
  unfold visionPhase
  simp only [h, if_true]

theorem contentPhase_skipContent (env : PipelineEnv) (input : PipelineInput)
    (options : PipelineOptions) (v : StageResult VisionAnalysis)
    (h : options.skipContent = true) :
    contentPhase env input options v =
      .ok ({ status := .pending, durationMs := 0 }, []) := by
  unfold contentPhase contentGateElse
  cases hv : v.data with
  | none => simp [h]
  | some vd => simp [h]

theorem contentPhase_noData (env : PipelineEnv) (input : PipelineInput)
    (options : PipelineOptions) (v : StageResult VisionAnalysis)
    (hv : v.data = none) :
    contentPhase env input options v = .ok (contentGateElse options) := by
  unfold contentPhase
  rw [hv]

theorem validationPhase_noContentData (env : PipelineEnv) (input : PipelineInput)
    (options : PipelineOptions) (v : StageResult VisionAnalysis)
    (c : StageResult ContentGeneration) (h : c.data = none) :
    validationPhase env input options v c =
      .ok ({ status := .pending, durationMs := 0 }, none, []) := by
  unfold validationPhase
  cases hv : v.data with
  | none => rfl
  | some vd => rw [h]

theorem assembleOutput_no_product (v : StageResult VisionAnalysis)
    (c : StageResult ContentGeneration) (vl : StageResult ValidationResult)
    (e : List String) (t : Nat) :
    (assembleOutput v c vl none e t).status ≠ .completed := by
  have h := (assembleOutput_status v c vl none e t).1
  intro hc
  exact absurd ((h.mp hc).1) (by simp)

/-- C10: with `skipVision` or `skipContent` set, `runPipeline` never
returns overall status `completed` and never produces a final product;
with `skipContent` set the content stage result is left at `pending`
(not `skipped`) and the validation stage result stays `pending`; with
`skipVision` set (and `skipContent` unset) the content stage result is
`skipped` and validation stays `pending`. -/
theorem pipeline_skip_flags_never_completed (env : PipelineEnv)
    (input : PipelineInput) (options : PipelineOptions) (out : PipelineOutput)
    (hskip : options.skipVision = true ∨ options.skipContent = true)
    (h : runPipeline env input options = .ok out) :
    out.status ≠ .completed ∧ out.product = none ∧
    (options.skipContent = true →
      out.contentGeneration.status = .pending ∧ out.validation.status = .pending) ∧
    (options.skipVision = true ∧ options.skipContent = false →
      out.contentGeneration.status = .skipped ∧ out.validation.status = .pending) := by
  unfold runPipeline at h
  obtain ⟨⟨v, e1⟩, h1, h⟩ := except_bind_ok h
  obtain ⟨⟨c, e2⟩, h2, h⟩ := except_bind_ok h
  obtain ⟨⟨vl, p, e3⟩, h3, h⟩ := except_bind_ok h
  have hout : out = assembleOutput v c vl p (e1 ++ e2 ++ e3) 0 := (Except.ok.inj h).symm
  by_cases hsc : options.skipContent = true
  · have h2' := contentPhase_skipContent env input options v hsc
    have hpair : (({ status := .pending, durationMs := 0 } : StageResult ContentGeneration),
        ([] : List String)) = (c, e2) := Except.ok.inj (h2'.symm.trans h2)
    injection hpair with hcq he2
    have h3' := validationPhase_noContentData env input options v c (by rw [← hcq])
    have hpair3 : (({ status := .pending, durationMs := 0 } : StageResult ValidationResult),
        (none : Option UnifiedProduct), ([] : List String)) = (vl, p, e3) :=
      Except.ok.inj (h3'.symm.trans h3)
    injection hpair3 with hvl hrest
    injection hrest with hp he3
    subst hout
    refine ⟨?_, ?_, ?_, ?_⟩
    · rw [← hp]
      exact assembleOutput_no_product v c vl (e1 ++ e2 ++ e3) 0
    · rw [← hp]
      rfl
    · intro _
      refine ⟨?_, ?_⟩
      · rw [← hcq]
        exact rfl
      · rw [← hvl]
        exact rfl
    · intro hcon
      exact absurd hsc (by rw [hcon.2]; exact fun he => Bool.noConfusion he)
  · have hsv : options.skipVision = true := by
      rcases hskip with hv | hc
      · exact hv
      · exact absurd hc hsc
    have h1' := visionPhase_skip env input options hsv
    have hpair1 : (({ status := .skipped, durationMs := 0 } : StageResult VisionAnalysis),
        ([] : List String)) = (v, e1) := Except.ok.inj (h1'.symm.trans h1)
    injection hpair1 with hvq he1
    have h2' := contentPhase_noData env input options v (by rw [← hvq])
    have hsc' : options.skipContent = false := by
      cases hb : options.skipContent
      · rfl
      · exact absurd hb hsc
    have hgate : contentGateElse options =
        ({ status := .skipped, durationMs := 0 }, []) := by
      unfold contentGateElse
      rw [hsc']
      rfl
    rw [hgate] at h2'
    have hpair2 : (({ status := .skipped, durationMs := 0 } : StageResult ContentGeneration),
        ([] : List String)) = (c, e2) := Except.ok.inj (h2'.symm.trans h2)
    injection hpair2 with hcq he2
    have h3' := validationPhase_noContentData env input options v c (by rw [← hcq])
    have hpair3 : (({ status := .pending, durationMs := 0 } : StageResult ValidationResult),
        (none : Option UnifiedProduct), ([] : List String)) = (vl, p, e3) :=
      Except.ok.inj (h3'.symm.trans h3)
    injection hpair3 with hvl hrest
    injection hrest with hp he3
    subst hout
    refine ⟨?_, ?_, ?_, ?_⟩
    · rw [← hp]
      exact assembleOutput_no_product v c vl (e1 ++ e2 ++ e3) 0
    · rw [← hp]
      rfl
    · intro hcon
      exact absurd hcon hsc
    · intro _
      refine ⟨?_, ?_⟩
      · rw [← hcq]
        exact rfl
      · rw [← hvl]
        exact rfl

def outSkipContentW : PipelineOutput :=
  assembleOutput
    { status := .failed, error := some visionErrW, durationMs := 0 }
    { status := .pending, durationMs := 0 }
    { status := .pending, durationMs := 0 }
    none [visionErrW] 0

theorem pipeline_skip_flags_never_completed_witness :
    ((PipelineOptions.skipVision { skipContent := true } = true ∨
        PipelineOptions.skipContent { skipContent := true } = true) ∧
      runPipeline envFailW inputW { skipContent := true } = .ok outSkipContentW) ∧
    (outSkipContentW.status ≠ .completed ∧ outSkipContentW.product = none ∧
    (PipelineOptions.skipContent { skipContent := true } = true →
      outSkipContentW.contentGeneration.status = .pending ∧
      outSkipContentW.validation.status = .pending) ∧
    (PipelineOptions.skipVision { skipContent := true } = true ∧
        PipelineOptions.skipContent { skipContent := true } = false →
      outSkipContentW.contentGeneration.status = .skipped ∧
      outSkipContentW.validation.status = .pending)) :=
  ⟨⟨Or.inr rfl, rfl⟩,
    pipeline_skip_flags_never_completed envFailW inputW { skipContent := true }
      outSkipContentW (Or.inr rfl) rfl⟩

end ProductAI
